import Mathlib

/-!
Verification development for the Syncer repository (two program variants:
a Tkinter desktop app driving a local git working copy, and a Kivy app
driving the GitHub REST API).  The external collaborators (HTTP transport,
filesystem, the git binary, `os.path` helpers) are modelled as explicit
parameters: every HTTP call site gets the response it receives as a field
of an environment structure, and every observable side effect (cache
write, remote request, git subprocess, filesystem mutation) is recorded
in an ordered effect trace.  Transport-level exceptions (`requests.
RequestException`) are not modelled separately: every request is assumed
to deliver a response with a status code, which is the code path all the
claims are about.
-/

namespace Syncer

/-- Python substring test: does needle occur as a leading block of hay? -/
def listHasPre : List Char → List Char → Bool
  | [], _ => true
  | _ :: _, [] => false
  | a :: n, b :: h => (a == b) && listHasPre n h

/-- Python substring test (the `in` operator on strings): does the needle
occur contiguously anywhere in the haystack? -/
def listHasSub (n : List Char) : List Char → Bool
  | [] => n.isEmpty
  | b :: h => listHasPre n (b :: h) || listHasSub n h

/-- Model of Python's `needle in hay` on strings. -/
def pyIn (needle hay : String) : Bool :=
  listHasSub needle.data hay.data

/-- Does the string begin with the given literal block? -/
def strStarts (s pre : String) : Bool :=
  listHasPre pre.data s.data

/-- Model of Python's `str.strip()`: drop leading and trailing whitespace. -/
def trimL (cs : List Char) : List Char :=
  ((cs.dropWhile Char.isWhitespace).reverse.dropWhile Char.isWhitespace).reverse

def pyStrip (s : String) : String :=
  ⟨trimL s.data⟩

/-- Model of Python's `str.rstrip("/")`: drop every trailing slash. -/
def rstripSlashL (cs : List Char) : List Char :=
  ((cs.reverse).dropWhile (fun c => c == '/')).reverse

def rstripSlash (s : String) : String :=
  ⟨rstripSlashL s.data⟩

/-- Drop one trailing `.git` when present (Python `s[:-4]` guarded by
`s.endswith(".git")`). -/
def dropDotGit (cs : List Char) : List Char :=
  if listHasPre ['t', 'i', 'g', '.'] cs.reverse then (cs.reverse.drop 4).reverse else cs

/-- Strip a literal leading block, returning the remainder when it is there. -/
def stripPre : List Char → List Char → Option (List Char)
  | [], cs => some cs
  | _ :: _, [] => none
  | a :: n, b :: h => if a == b then stripPre n h else none

/-- Split off everything before the first slash; `none` when no slash occurs. -/
def breakSlash : List Char → List Char × Option (List Char)
  | [] => ([], none)
  | c :: t =>
    if c == '/' then ([], some t)
    else
      let r := breakSlash t
      (c :: r.1, r.2)

/-- The `owner/repo` tail of the URL regex: one nonempty slash-free segment,
a slash, one nonempty slash-free segment, end of string. -/
def twoSeg (cs : List Char) : Bool :=
  match breakSlash cs with
  | (a, some b) => (!a.isEmpty) && (!b.isEmpty) && b.all (fun c => c != '/')
  | (_, none) => false

/-- The regex `^https?://github\.com/[^/]+/[^/]+$` from `validate_repo_url`. -/
def shapeOk (s : String) : Bool :=
  match stripPre "https://github.com/".data s.data with
  | some rest => twoSeg rest
  | none =>
    match stripPre "http://github.com/".data s.data with
    | some rest => twoSeg rest
    | none => false

/-- `main.py` `validate_repo_url`: strip whitespace, strip all trailing
slashes, strip one trailing `.git`, then require the exact
`scheme://github.com/owner/repo` shape. -/
def validate_repo_url (repoLink : String) : Except String String :=
  let s1 := rstripSlash (pyStrip repoLink)
  let s2 := ⟨dropDotGit s1.data⟩
  if shapeOk s2 then Except.ok s2
  else Except.error "Invalid repo URL. Use: https://github.com/owner/repo"

/-- Observable side effects of a run: cache writes, HTTP requests against the
hosting API, git subprocess invocations, filesystem mutations, sleeps. -/
inductive Eff where
  | cacheWrite
  | chdir (dir : String)
  | gitCmd (args : List String)
  | getRepo
  | getBranchMain
  | getBranchList
  | putContents (path branch : String)
  | patchDefaultBranch (branch : String)
  | getRef (branch : String)
  | createRef (branch sha : String)
  | getContentsFile (path branchRef : String)
  | getContents (branchRef : String)
  | download (url : String)
  | getPulls
  | mergePR (n : Nat)
  | dispatchWorkflow
  | getRuns
  | getJobs (runId : Nat)
  | sleep (n : Nat)
  | zipWrite (path : String)
  | writeFile (path : String)
  | removeFile (path : String)
  | rmTree (path : String)
  | makeDirs (path : String)
  | extractZip (dest : String)
deriving DecidableEq

/-- The on-disk location `os.path.join(BASE_DIR, "backup.zip")`; `BASE_DIR`
itself is platform glue outside the modelled core, so the artifact keeps a
fixed symbolic name. -/
def TEMP_BACKUP : String := "backup.zip"

/-- Responses received by the five HTTP call sites of `get_repo_info`. -/
structure RepoEnv where
  repoStatus : Nat
  repoMsg : String
  repoDefault : String
  branchMainStatus : Nat
  createInitStatus : Nat
  createInitMsg : String
  patchStatus : Nat
  patchMsg : String

/-- Python `str.split("/")` on the character list. -/
def splitSlashL : List Char → List (List Char)
  | [] => [[]]
  | c :: t =>
    if c == '/' then [] :: splitSlashL t
    else
      match splitSlashL t with
      | [] => [[c]]
      | h :: r => (c :: h) :: r

/-- Python `parts[-2], parts[-1]` after `repo_link.rstrip("/").split("/")`. -/
def lastTwoParts (s : String) : String × String :=
  let rev := (splitSlashL (rstripSlash s).data).reverse
  (⟨(rev.drop 1).headD []⟩, ⟨rev.headD []⟩)

/-- `main.py` `get_repo_info`: resolve the URL to owner/repo, read the repo
metadata, and when no branch literally named `main` exists, bootstrap it by
committing a placeholder `.init` file and patching the default branch.
Every `ValueError` raised inside the `try` block is re-raised by the generic
handler as `Error parsing repo: ...`, which is what the model returns. -/
def get_repo_info (repoLink : String) (env : RepoEnv) :
    Except String (String × String × String) × List Eff :=
  match validate_repo_url repoLink with
  | Except.error e => (Except.error ("Error parsing repo: " ++ e), [])
  | Except.ok link =>
    let owner := (lastTwoParts link).1
    let repo := (lastTwoParts link).2
    let effs0 := [Eff.getRepo]
    if env.repoStatus == 401 then
      (Except.error "Error parsing repo: Invalid PAT or insufficient scopes", effs0)
    else if env.repoStatus == 403 then
      (Except.error "Error parsing repo: API rate limit exceeded or access denied", effs0)
    else if env.repoStatus != 200 then
      (Except.error ("Error parsing repo: Repo not found: " ++ env.repoMsg), effs0)
    else
      let effs1 := effs0 ++ [Eff.getBranchMain]
      if env.branchMainStatus != 200 then
        let effs2 := effs1 ++ [Eff.putContents ".init" "main"]
        if env.createInitStatus != 200 && env.createInitStatus != 201 then
          (Except.error ("Error parsing repo: Error creating main branch: " ++
            env.createInitMsg), effs2)
        else
          let effs3 := effs2 ++ [Eff.patchDefaultBranch "main"]
          if env.patchStatus != 200 then
            (Except.error ("Error parsing repo: Error setting main as default: " ++
              env.patchMsg), effs3)
          else (Except.ok (owner, repo, "main"), effs3)
      else (Except.ok (owner, repo, env.repoDefault), effs1)

/-- `main.py` `create_zip`, with the filesystem answers as parameters:
whether the vault is a directory, and whether opening the destination
archive for writing succeeds (`zipExc` carries the exception text when it
does not).  The archive write is modelled as atomic. -/
def create_zip (vaultIsDir : Bool) (zipExc : Option String)
    (vault_path zip_path : String) : String × List Eff :=
  if !vaultIsDir then ("Error: Vault " ++ vault_path ++ " not found", [])
  else
    match zipExc with
    | some e => ("Zip creation failed: " ++ e, [])
    | none => ("Created zip: " ++ zip_path, [Eff.zipWrite zip_path])

/-- Responses received by `auto_merge_pull_requests`: the PR list response
and, per PR number, the merge response. -/
structure PrEnv where
  pullsStatus : Nat
  pullsMsg : String
  prs : List Nat
  mergeStatus : Nat → Nat
  mergeMsg : Nat → String

/-- `main.py` `auto_merge_pull_requests`. -/
def auto_merge_pull_requests (penv : PrEnv) : List String × List Eff :=
  if penv.pullsStatus != 200 then
    (["Error fetching PRs: " ++ penv.pullsMsg], [Eff.getPulls])
  else
    (penv.prs.map (fun n =>
        if penv.mergeStatus n == 200 then "Merged PR #" ++ toString n
        else "Error merging PR #" ++ toString n ++ ": " ++ penv.mergeMsg n),
     Eff.getPulls :: penv.prs.map (fun n => Eff.mergePR n))

/-- Responses received by `remote_backup_vault`'s HTTP call sites. -/
structure BackupEnv where
  backupRefStatus : Nat
  defRefStatus : Nat
  defRefMsg : String
  defRefSha : String
  createBackupStatus : Nat
  createBackupMsg : String
  uploadStatus : Nat
  uploadMsg : String

/-- `main.py` `remote_backup_vault`: zip the vault, make sure a `backup`
branch exists (creating it from the default branch head when absent — the
code performs no rotation of any kind when the branch already exists),
upload the archive as a timestamped file on `backup`, then best-effort
auto-merge open PRs.  `readExc` carries the exception text when reading the
local archive back fails. -/
def remote_backup_vault (vaultIsDir : Bool) (zipExc : Option String)
    (readExc : Option String) (vault_path ts default_branch : String)
    (env : BackupEnv) (penv : PrEnv) : List String × List Eff :=
  let z := create_zip vaultIsDir zipExc vault_path TEMP_BACKUP
  if pyIn "Error" z.1 then ([z.1], z.2)
  else
    let uploadStep := fun (out1 : List String) (effs1 : List Eff) =>
      match readExc with
      | some e => (out1 ++ ["Remote backup error: " ++ e], effs1)
      | none =>
        let effs2 := effs1 ++ [Eff.putContents ("backup_" ++ ts ++ ".zip") "backup"]
        if env.uploadStatus != 200 && env.uploadStatus != 201 then
          (out1 ++ ["Error uploading backup: " ++ env.uploadMsg], effs2)
        else
          let effs3 := effs2 ++ [Eff.removeFile TEMP_BACKUP]
          let pr := auto_merge_pull_requests penv
          (out1 ++ ["Uploaded remote backup"] ++ pr.1, effs3 ++ pr.2)
    let out0 := [z.1]
    let effs0 := z.2 ++ [Eff.getRef "backup"]
    if env.backupRefStatus != 200 then
      let effs1 := effs0 ++ [Eff.getRef default_branch]
      if env.defRefStatus != 200 then
        (out0 ++ ["Error getting " ++ default_branch ++ " ref: " ++
          env.defRefMsg], effs1)
      else
        let effs2 := effs1 ++ [Eff.createRef "backup" env.defRefSha]
        if env.createBackupStatus != 201 then
          (out0 ++ ["Error creating backup branch: " ++
            env.createBackupMsg], effs2)
        else uploadStep (out0 ++ ["Created backup branch"]) effs2
    else uploadStep out0 effs0

/-- An entry of the backup branch's contents listing: file name and its
download URL. -/
structure BItem where
  name : String
  url : String
deriving DecidableEq

/-- Python `name.endswith(".zip")`. -/
def endsZip (n : String) : Bool :=
  listHasPre ['p', 'i', 'z', '.'] n.data.reverse

/-- Python's `<` on single characters: code-point comparison. -/
def charLt (a b : Char) : Bool := a.toNat < b.toNat

/-- Python's `<` on strings: lexicographic comparison by code points. -/
def listLt : List Char → List Char → Bool
  | [], [] => false
  | [], _ :: _ => true
  | _ :: _, [] => false
  | a :: s, b :: t => if charLt a b then true else if charLt b a then false else listLt s t

def strLtPy (a b : String) : Bool := listLt a.data b.data

/-- Python's `max(backups, key=lambda x: x["name"])`: the first element with
the lexicographically greatest name. -/
def maxByName : List BItem → Option BItem
  | [] => none
  | x :: xs => some (xs.foldl (fun acc y => if strLtPy acc.name y.name then y else acc) x)

/-- Responses received by `restore_remote_vault`: the contents listing of
the `backup` branch, the download response status, and whether the vault
directory currently exists. -/
structure RestoreEnv where
  contentsStatus : Nat
  contentsMsg : String
  items : List BItem
  downloadStatus : Nat
  vaultExists : Bool

/-- `main.py` `restore_remote_vault`: list the `backup` branch, keep the
`.zip` entries, pick the one with the greatest name, download it, wipe and
recreate the vault directory and extract the archive into it. -/
def restore_remote_vault (vault_path : String) (env : RestoreEnv) :
    List String × List Eff :=
  let effs0 := [Eff.getContents "backup"]
  if env.contentsStatus != 200 then
    (["Error accessing backup branch: " ++ env.contentsMsg], effs0)
  else
    let backups := env.items.filter (fun it => endsZip it.name)
    match maxByName backups with
    | none => (["Error: No backups found in backup branch"], effs0)
    | some latest =>
      let effs1 := effs0 ++ [Eff.download latest.url]
      if env.downloadStatus != 200 then
        (["Error downloading backup: " ++ toString env.downloadStatus], effs1)
      else
        let effs2 := effs1 ++ [Eff.writeFile TEMP_BACKUP] ++
          (if env.vaultExists then [Eff.rmTree vault_path] else []) ++
          [Eff.makeDirs vault_path, Eff.extractZip vault_path,
           Eff.removeFile TEMP_BACKUP]
        (["Downloaded backup: " ++ latest.name,
          "Restored vault from " ++ latest.name], effs2)

/-- Outcome of one iteration of the per-file upload loop: the PUT succeeded,
the PUT was answered with a non-2xx status, or reading/encoding the local
file raised (the `except` inside the loop). -/
inductive FileRes where
  | uploaded
  | putFailed (msg : String)
  | readFailed (msg : String)
deriving DecidableEq

def FileRes.isUp : FileRes → Bool
  | .uploaded => true
  | _ => false

def FileRes.isRead : FileRes → Bool
  | .readFailed _ => true
  | _ => false

/-- Responses received by `upload_files_to_github`'s HTTP call sites. -/
structure UploadEnv where
  readmeStatus : Nat
  readmeUpStatus : Nat
  readmeUpMsg : String
  refStatus : Nat
  refSha : String
  defRefStatus : Nat
  defRefMsg : String
  defRefSha : String
  createBranchStatus : Nat
  createBranchMsg : String
  fileRes : String → FileRes

/-- The `for root, _, files in os.walk(directory)` loop of
`upload_files_to_github`: one PUT per file, each failure recorded
independently, never aborting the remaining files. -/
def uploadLoop (fr : String → FileRes) (branch : String) :
    List String → List String → List String → List Eff →
    List String × List String × List Eff
  | [], out, up, effs => (out, up, effs)
  | f :: rest, out, up, effs =>
    match fr f with
    | .uploaded =>
      uploadLoop fr branch rest (out ++ ["Uploaded: " ++ f]) (up ++ [f])
        (effs ++ [Eff.putContents f branch])
    | .putFailed m =>
      uploadLoop fr branch rest (out ++ ["Error uploading " ++ f ++ ": " ++ m]) up
        (effs ++ [Eff.putContents f branch])
    | .readFailed m =>
      uploadLoop fr branch rest (out ++ ["Error processing " ++ f ++ ": " ++ m]) up effs

/-- `main.py` `upload_files_to_github`: inject a generated `README.md` when
`readme.md` is absent on the target branch, ensure the branch exists
(creating it from the default branch head), then upload every file of the
directory one at a time. -/
def upload_files_to_github (dirExists : Bool) (directory : String)
    (fs : List String) (branch default_branch : String) (env : UploadEnv) :
    List String × List String × List Eff :=
  if !dirExists then (["Error: Folder " ++ directory ++ " not found"], [], [])
  else
    let readmeStep : List String × List String × List Eff :=
      if env.readmeStatus == 404 then
        if env.readmeUpStatus == 200 || env.readmeUpStatus == 201 then
          (["Uploaded README.md"], ["README.md"],
           [Eff.getContentsFile "readme.md" branch, Eff.putContents "README.md" branch])
        else
          (["Error uploading README: " ++ env.readmeUpMsg], [],
           [Eff.getContentsFile "readme.md" branch, Eff.putContents "README.md" branch])
      else ([], [], [Eff.getContentsFile "readme.md" branch])
    let out0 := readmeStep.1
    let up0 := readmeStep.2.1
    let effs1 := readmeStep.2.2 ++ [Eff.getRef branch]
    if env.refStatus == 200 then
      uploadLoop env.fileRes branch fs
        (out0 ++ ["Branch " ++ branch ++ " exists, updating"]) up0 effs1
    else
      let effs2 := effs1 ++ [Eff.getRef default_branch]
      if env.defRefStatus != 200 then
        (out0 ++ ["Error getting " ++ default_branch ++ " ref: " ++ env.defRefMsg],
         up0, effs2)
      else
        let effs3 := effs2 ++ [Eff.createRef branch env.defRefSha]
        if env.createBranchStatus != 201 then
          (out0 ++ ["Error creating branch: " ++ env.createBranchMsg], up0, effs3)
        else
          uploadLoop env.fileRes branch fs
            (out0 ++ ["Created branch: " ++ branch]) up0 effs3

/-- The latest workflow run as reported by one run-listing response. -/
structure RunInfo where
  status : String
  conclusion : String
  runId : Nat
deriving DecidableEq

/-- One answer to the run-listing request: a non-200 response (with its
error message) or a 200 response with the list of workflow runs. -/
inductive PollRes where
  | fail (msg : String)
  | ok (runsList : List RunInfo)

/-- Answer to the per-run jobs request: status and the jobs as
(name, conclusion, html_url) triples. -/
structure JobsRes where
  status : Nat
  jobs : List (String × String × String)

/-- Responses received by `trigger_github_workflow`: the dispatch response
and, for each polling attempt index, the run-listing and jobs responses. -/
structure WfEnv where
  dispatchStatus : Nat
  dispatchMsg : String
  poll : Nat → PollRes
  jobsAt : Nat → JobsRes

/-- Diagnostic lines fetched for a failed run (the per-job loop). -/
def failJobLines (j : JobsRes) : List String :=
  if j.status == 200 then
    ((j.jobs.filter (fun t => t.2.1 == "failure")).map
      (fun t => ["Workflow failed: " ++ t.1, "Logs: " ++ t.2.2])).flatten
  else []

/-- The `for _ in range(12)` polling loop of `trigger_github_workflow`:
list runs; on a non-200 answer stop with an error line; when the latest
run is `completed` report its conclusion and stop; otherwise sleep 15
seconds and try again; after the attempt budget report a timeout. -/
def pollLoop (poll : Nat → PollRes) (jobsAt : Nat → JobsRes) :
    Nat → Nat → List String → List Eff → List String × List Eff
  | _, 0, out, effs => (out ++ ["Workflow timed out"], effs)
  | i, fuel + 1, out, effs =>
    match poll i with
    | .fail m =>
      (out ++ ["Error checking workflow status: " ++ m], effs ++ [Eff.getRuns])
    | .ok [] => pollLoop poll jobsAt (i + 1) fuel out (effs ++ [Eff.getRuns, Eff.sleep 15])
    | .ok (r :: _) =>
      if r.status == "completed" then
        if r.conclusion == "success" then
          (out ++ ["Workflow completed successfully"], effs ++ [Eff.getRuns])
        else
          (out ++ failJobLines (jobsAt i) ++ ["Workflow failed: " ++ r.conclusion],
           effs ++ [Eff.getRuns, Eff.getJobs r.runId])
      else pollLoop poll jobsAt (i + 1) fuel out (effs ++ [Eff.getRuns, Eff.sleep 15])

/-- `main.py` `trigger_github_workflow`: dispatch the `git-sync.yml`
workflow, then poll the run listing up to 12 times at 15-second intervals.
The identity parameters only populate the dispatch payload. -/
def trigger_github_workflow (username email commit_message default_branch
    branch : String) (wenv : WfEnv) : List String × List Eff :=
  if wenv.dispatchStatus != 204 then
    (["Error triggering workflow: " ++ wenv.dispatchMsg], [Eff.dispatchWorkflow])
  else pollLoop wenv.poll wenv.jobsAt 0 12 ["Triggered workflow"] [Eff.dispatchWorkflow]

/-- The six text fields of the Kivy form (`self.ids...`), as entered;
`username` holds the PAT in this variant. -/
structure MainFields where
  username : String
  email : String
  repoLink : String
  commitMessage : String
  localVault : String
  branchName : String

/-- `branch_name = self.ids.branch_name.text.strip() or "main"`. -/
def mainBranch (f : MainFields) : String :=
  if pyStrip f.branchName == "" then "main" else pyStrip f.branchName

/-- The validation phase of `GitConfigLayout.run_commands` (`main.py`):
the three early-return checks performed before any side effect. -/
def mainValidationError (f : MainFields) (isDir : String → Bool) : Option String :=
  let token := pyStrip f.username
  let email := pyStrip f.email
  let repoLink := pyStrip f.repoLink
  let localVault := pyStrip f.localVault
  if token == "" || email == "" || repoLink == "" || localVault == "" then
    some "Error: Fill all required fields."
  else if !(pyIn "@" email) then some "Error: Valid email required."
  else if !(isDir localVault) then
    some ("Error: Folder " ++ localVault ++ " not found.")
  else none

/-- `GitConfigLayout.run_commands` (`main.py`): validate, resolve the repo,
enumerate the vault (`walk` is the `os.walk` listing of relative paths),
save the settings cache, upload all files, and — only when every per-file
outcome is error-free — dispatch the workflow, poll it, and auto-merge
open pull requests.  On a raised `ValueError` the visible text is replaced
by just the error line, which is what the model returns. -/
def runCommandsMain (f : MainFields) (isDir : String → Bool) (walk : List String)
    (renv : RepoEnv) (cacheOk : Bool) (uenv : UploadEnv) (wenv : WfEnv)
    (penv : PrEnv) : List String × List Eff :=
  match mainValidationError f isDir with
  | some m => ([m], [])
  | none =>
    let token := pyStrip f.username
    let email := pyStrip f.email
    let repoLink := pyStrip f.repoLink
    let commitMessage := pyStrip f.commitMessage
    let localVault := pyStrip f.localVault
    let branchName := mainBranch f
    match get_repo_info repoLink renv with
    | (Except.error e, reffs) => (["Error: " ++ e], reffs)
    | (Except.ok info, reffs) =>
      let out0 := ["Starting sync...",
        "Validated repo: " ++ info.1 ++ "/" ++ info.2.1 ++
          " (default: " ++ info.2.2 ++ ")"]
      if walk.isEmpty then (out0 ++ ["No files in " ++ localVault ++ "."], reffs)
      else
        let out1 := out0 ++ ["Found " ++ toString walk.length ++ " file(s)."] ++
          (if cacheOk then ["Settings saved."]
           else ["Warning: Failed to save settings."]) ++
          ["Uploading files..."]
        let effs1 := reffs ++ [Eff.cacheWrite]
        let u := upload_files_to_github (isDir localVault) localVault walk
          branchName info.2.2 uenv
        let out2 := out1 ++ u.1
        let effs2 := effs1 ++ u.2.2
        if u.2.1.isEmpty then
          (out2 ++ ["Error: No files uploaded. Check folder."], effs2)
        else if u.1.any (fun l => pyIn "Error" l) then (out2, effs2)
        else
          let w := trigger_github_workflow token email
            (if commitMessage == "" then "Auto sync" else commitMessage)
            info.2.2 branchName wenv
          let p := auto_merge_pull_requests penv
          (out2 ++ ["Running workflow..."] ++ w.1 ++ p.1, effs2 ++ w.2 ++ p.2)

/-- Result of one git subprocess call: exit 0 with captured stdout, or a
nonzero exit where `msg` models `str(e)` (the `CalledProcessError` text)
and `stderr` the captured standard error. -/
inductive GitRes where
  | ok (stdout : String)
  | err (msg stderr : String)
deriving DecidableEq

/-- The answers of the git binary to each call site of `run_git_commands`
(`Syncer-Main.py`), one field per call in program order; the two
working-tree status queries get separate fields because the tree changes
between them. -/
structure GitWorld where
  dirExists : Bool
  cfgName : GitRes
  cfgEmail : GitRes
  remoteV : GitRes
  setUrl : GitRes
  addRemote : GitRes
  fetch : GitRes
  statusBefore : GitRes
  addBefore : GitRes
  commitBefore : GitRes
  mergePlain : GitRes
  mergeFallback : GitRes
  statusAfter : GitRes
  addAfter : GitRes
  commitAfter : GitRes
  push : GitRes

/-- The log line of the outer `except subprocess.CalledProcessError`
handler of `run_git_commands`. -/
def gitErrLine (dir msg stderr : String) : String :=
  "Error executing Git command in " ++ dir ++ ": " ++ msg ++ "\n" ++ stderr

/-- `check_remote_exists` (`Syncer-Main.py`): `"origin" in stdout` of
`git remote -v`; a failing call is reported as no remote. -/
def check_remote_exists (r : GitRes) : Bool :=
  match r with
  | .ok s => pyIn "origin" s
  | .err _ _ => false

/-- `has_uncommitted_changes` (`Syncer-Main.py`): nonempty stripped stdout
of `git status --porcelain`; a failing call is reported as no changes. -/
def has_uncommitted_changes (r : GitRes) : Bool :=
  match r with
  | .ok s => pyStrip s != ""
  | .err _ _ => false

/-- The final push step of `run_git_commands` and its closing success line. -/
def pushPhase (directory : String) (w : GitWorld) (out : List String)
    (effs : List Eff) : List String × List Eff :=
  let effs1 := effs ++ [Eff.gitCmd ["git", "push", "origin", "master"]]
  match w.push with
  | .err m s => (out ++ ["Failed to push to origin/master: " ++ m ++ "\n" ++ s], effs1)
  | .ok _ =>
    (out ++ ["Successfully pushed to origin/master",
      "Git operations completed successfully in " ++ directory], effs1)

/-- The post-merge commit step of `run_git_commands`. -/
def postMergePhase (directory commitMsg : String) (w : GitWorld)
    (out : List String) (effs : List Eff) : List String × List Eff :=
  let effs1 := effs ++ [Eff.gitCmd ["git", "status", "--porcelain"]]
  if has_uncommitted_changes w.statusAfter then
    let effs2 := effs1 ++ [Eff.gitCmd ["git", "add", "."]]
    match w.addAfter with
    | .err m s => (out ++ [gitErrLine directory m s], effs2)
    | .ok _ =>
      let effs3 := effs2 ++ [Eff.gitCmd ["git", "commit", "-m", commitMsg]]
      match w.commitAfter with
      | .err m s =>
        (out ++ ["Failed to commit after merge: " ++ m ++ "\n" ++ s], effs3)
      | .ok _ =>
        pushPhase directory w
          (out ++ ["Successfully committed changes after merge with message \x27" ++
            commitMsg ++ "\x27"]) effs3
  else pushPhase directory w (out ++ ["No changes to commit after merge"]) effs1

/-- The two-stage merge of `run_git_commands`: a plain
`git merge origin/master --no-edit` and, only when it fails, one retry with
`--allow-unrelated-histories`; a second failure ends the run with the
tool's diagnostic text. -/
def mergePhase (directory commitMsg : String) (w : GitWorld)
    (out : List String) (effs : List Eff) : List String × List Eff :=
  let effs1 := effs ++ [Eff.gitCmd ["git", "merge", "origin/master", "--no-edit"]]
  match w.mergePlain with
  | .ok _ =>
    postMergePhase directory commitMsg w
      (out ++ ["Successfully merged with origin/master"]) effs1
  | .err _ _ =>
    let out1 := out ++
      ["Standard merge failed, attempting with --allow-unrelated-histories..."]
    let effs2 := effs1 ++
      [Eff.gitCmd ["git", "merge", "origin/master", "--no-edit",
        "--allow-unrelated-histories"]]
    match w.mergeFallback with
    | .err m s =>
      (out1 ++ ["Failed to merge with --allow-unrelated-histories: " ++ m ++
        "\n" ++ s], effs2)
    | .ok _ =>
      postMergePhase directory commitMsg w
        (out1 ++ ["Successfully merged with --allow-unrelated-histories"]) effs2

/-- The pre-merge commit step of `run_git_commands`. -/
def preMergePhase (directory commitMsg : String) (w : GitWorld)
    (out : List String) (effs : List Eff) : List String × List Eff :=
  let effs1 := effs ++ [Eff.gitCmd ["git", "status", "--porcelain"]]
  if has_uncommitted_changes w.statusBefore then
    let effs2 := effs1 ++ [Eff.gitCmd ["git", "add", "."]]
    match w.addBefore with
    | .err m s => (out ++ [gitErrLine directory m s], effs2)
    | .ok _ =>
      let effs3 := effs2 ++ [Eff.gitCmd ["git", "commit", "-m", commitMsg]]
      match w.commitBefore with
      | .err m s =>
        (out ++ ["Failed to commit pre-merge changes: " ++ m ++ "\n" ++ s], effs3)
      | .ok _ =>
        mergePhase directory commitMsg w
          (out ++ ["Successfully committed local changes before merge with message \x27" ++
            commitMsg ++ "\x27"]) effs3
  else
    mergePhase directory commitMsg w
      (out ++ ["No local changes to commit before merge"]) effs1

/-- The fetch step of `run_git_commands` (fatal on failure). -/
def fetchPhase (directory commitMsg : String) (w : GitWorld)
    (out : List String) (effs : List Eff) : List String × List Eff :=
  let effs1 := effs ++ [Eff.gitCmd ["git", "fetch", "origin"]]
  match w.fetch with
  | .err m s => (out ++ ["Failed to fetch Git repository: " ++ m ++ "\n" ++ s], effs1)
  | .ok _ =>
    preMergePhase directory commitMsg w
      (out ++ ["Successfully fetched Git repository"]) effs1

/-- `run_git_commands` (`Syncer-Main.py`): configure identity, ensure the
`origin` remote, fetch, commit pending changes, merge with fallback,
commit again, push.  Call sites without a local handler jump to the outer
`except` (`gitErrLine`) and end the run. -/
def run_git_commands (directory username email repo_link commit_message : String)
    (w : GitWorld) : List String × List Eff :=
  let commitMsg := if pyStrip commit_message == "" then "Auto commit"
    else pyStrip commit_message
  if !w.dirExists then (["Error: Directory " ++ directory ++ " does not exist"], [])
  else
    let out0 := ["Changed to directory: " ++ directory]
    let effs0 := [Eff.chdir directory,
      Eff.gitCmd ["git", "config", "user.name", username]]
    match w.cfgName with
    | .err m s => (out0 ++ [gitErrLine directory m s], effs0)
    | .ok _ =>
      let effs1 := effs0 ++ [Eff.gitCmd ["git", "config", "user.email", email]]
      match w.cfgEmail with
      | .err m s => (out0 ++ [gitErrLine directory m s], effs1)
      | .ok _ =>
        let out1 := out0 ++
          ["Successfully configured Git user: " ++ username ++ " <" ++ email ++ ">"]
        let effs2 := effs1 ++ [Eff.gitCmd ["git", "remote", "-v"]]
        if check_remote_exists w.remoteV then
          let effs3 := effs2 ++
            [Eff.gitCmd ["git", "remote", "set-url", "origin", repo_link]]
          match w.setUrl with
          | .err m s => (out1 ++ [gitErrLine directory m s], effs3)
          | .ok _ =>
            fetchPhase directory commitMsg w
              (out1 ++ ["Successfully updated remote origin to " ++ repo_link]) effs3
        else
          let effs3 := effs2 ++
            [Eff.gitCmd ["git", "remote", "add", "origin", repo_link]]
          match w.addRemote with
          | .err m s => (out1 ++ [gitErrLine directory m s], effs3)
          | .ok _ =>
            fetchPhase directory commitMsg w
              (out1 ++ ["Successfully added remote origin to " ++ repo_link]) effs3

/-- The six text fields of the Tkinter form, as entered. -/
structure SyncerFields where
  username : String
  email : String
  repoLink : String
  commitMessage : String
  localVault : String
  onedriveVault : String

/-- The validation phase of the desktop `run_commands` (`Syncer-Main.py`):
the four early-return checks performed before any side effect.  `np`
models `os.path.normpath`. -/
def syncerValidationError (f : SyncerFields) (np : String → String)
    (isDir : String → Bool) : Option String :=
  let username := pyStrip f.username
  let email := pyStrip f.email
  let repoLink := pyStrip f.repoLink
  let localVault := pyStrip f.localVault
  let onedriveVault := pyStrip f.onedriveVault
  if username == "" || email == "" || repoLink == "" || localVault == "" then
    some "Error: Username, Email, Repository Link, and Local Vault Link are required."
  else if onedriveVault != "" && np localVault == np onedriveVault then
    some "Error: Local Vault Link and OneDrive Vault Link must be different."
  else if !(isDir localVault) then
    some ("Error: Local Vault Link directory " ++ localVault ++ " does not exist.")
  else if onedriveVault != "" && !(isDir onedriveVault) then
    some ("Error: OneDrive Vault Link directory " ++ onedriveVault ++ " does not exist.")
  else none

/-- The desktop `run_commands` (`Syncer-Main.py`): validate, save the cache,
run the git sequence on the local vault and, when configured, on the
OneDrive vault. -/
def runCommandsSyncer (f : SyncerFields) (np : String → String)
    (isDir : String → Bool) (w1 w2 : GitWorld) : List String × List Eff :=
  match syncerValidationError f np isDir with
  | some m => ([m], [])
  | none =>
    let username := pyStrip f.username
    let email := pyStrip f.email
    let repoLink := pyStrip f.repoLink
    let commitMessage := pyStrip f.commitMessage
    let localVault := pyStrip f.localVault
    let onedriveVault := pyStrip f.onedriveVault
    let r1 := run_git_commands localVault username email repoLink commitMessage w1
    let r2 := if onedriveVault != "" then
        run_git_commands onedriveVault username email repoLink commitMessage w2
      else ([], [])
    (["Processing Local Vault..."] ++ r1.1 ++
      (if onedriveVault != "" then ["Processing OneDrive Vault..."] ++ r2.1 else []) ++
      ["All operations completed."],
     Eff.cacheWrite :: (r1.2 ++ r2.2))

/-! ## General lemmas about the string model -/

lemma strData_append (s t : String) : (s ++ t).data = s.data ++ t.data := rfl

lemma listHasPre_self_append (n t : List Char) : listHasPre n (n ++ t) = true := by
  induction n with
  | nil => rfl
  | cons a m ih => simp [listHasPre, ih]

lemma listHasPre_append_left (n m t : List Char) (h : listHasPre n m = true) :
    listHasPre n (m ++ t) = true := by
  induction n generalizing m with
  | nil => rfl
  | cons a n ih =>
    cases m with
    | nil => simp [listHasPre] at h
    | cons b m =>
      simp only [listHasPre, Bool.and_eq_true] at h ⊢
      exact ⟨h.1, ih m h.2⟩

lemma listHasSub_of_pre (n h : List Char) (hp : listHasPre n h = true) :
    listHasSub n h = true := by
  cases h with
  | nil =>
    cases n with
    | nil => rfl
    | cons a m => simp [listHasPre] at hp
  | cons b t => simp [listHasSub, hp]

/-- When a block begins with the needle, the needle occurs in any
extension of the block. -/
lemma pyIn_of_starts (needle pre rest : String) (h : strStarts pre needle = true) :
    pyIn needle (pre ++ rest) = true := by
  unfold pyIn
  rw [strData_append]
  exact listHasSub_of_pre _ _ (listHasPre_append_left _ _ _ h)

lemma listHasPre_take_false (n m t : List Char)
    (h : listHasPre (n.take m.length) m = false) :
    listHasPre n (m ++ t) = false := by
  induction m generalizing n with
  | nil => simp [listHasPre] at h
  | cons b m ih =>
    cases n with
    | nil => simp [listHasPre] at h
    | cons a n =>
      cases hab : a == b with
      | false => simp [listHasPre, hab]
      | true =>
        simp only [List.length_cons, List.take_succ_cons, listHasPre, hab,
          Bool.true_and] at h
        simp [listHasPre, hab, ih n h]

/-- Lines produced by the per-file upload loop on a PUT failure. -/
def isErrUploadLine (l : String) : Bool := strStarts l "Error uploading "

/-- Number of per-file PUT-failure lines in a log. -/
def countFail (out : List String) : Nat := (out.filter isErrUploadLine).length

lemma countFail_append (a b : List String) :
    countFail (a ++ b) = countFail a + countFail b := by
  simp [countFail, List.filter_append]

lemma isErrUploadLine_of_append (x : String) :
    isErrUploadLine ("Error uploading " ++ x) = true := by
  unfold isErrUploadLine strStarts
  rw [strData_append]
  exact listHasPre_self_append _ _

lemma isErrUploadLine_false_of_take (pre x : String)
    (h : listHasPre ("Error uploading ".data.take pre.data.length) pre.data = false) :
    isErrUploadLine (pre ++ x) = false := by
  unfold isErrUploadLine strStarts
  rw [strData_append]
  exact listHasPre_take_false _ _ _ h

lemma isErrUploadLine_uploaded (x : String) :
    isErrUploadLine ("Uploaded: " ++ x) = false :=
  isErrUploadLine_false_of_take _ _ (by decide)

lemma isErrUploadLine_processing (x : String) :
    isErrUploadLine ("Error processing " ++ x) = false :=
  isErrUploadLine_false_of_take _ _ (by decide)

lemma isErrUploadLine_branch (b : String) :
    isErrUploadLine ("Branch " ++ b ++ " exists, updating") = false := by
  rw [String.append_assoc]
  exact isErrUploadLine_false_of_take _ _ (by decide)

lemma isErrUploadLine_created (b : String) :
    isErrUploadLine ("Created branch: " ++ b) = false :=
  isErrUploadLine_false_of_take _ _ (by decide)

lemma pyIn_error_upload (f m : String) :
    pyIn "Error" ("Error uploading " ++ f ++ ": " ++ m) = true := by
  rw [String.append_assoc, String.append_assoc]
  exact pyIn_of_starts _ _ _ (by decide)

lemma pyIn_error_processing (f m : String) :
    pyIn "Error" ("Error processing " ++ f ++ ": " ++ m) = true := by
  rw [String.append_assoc, String.append_assoc]
  exact pyIn_of_starts _ _ _ (by decide)

lemma length_filter_add_length_filter_not {α : Type} (l : List α) (p : α → Bool) :
    (l.filter p).length + (l.filter (fun a => !(p a))).length = l.length := by
  induction l with
  | nil => rfl
  | cons a t ih =>
    cases h : p a <;> simp [List.filter_cons, h, ← ih] <;> omega

/-! ## C7: repository URL resolution -/

/-- Remove one trailing slash when present (the claim's literal reading of
"stripping a trailing slash"). -/
def dropOneSlash (s : String) : String :=
  match s.data.reverse with
  | '/' :: r => ⟨r.reverse⟩
  | _ => s

/-- The acceptance predicate exactly as claim C7 states it: normalize by
removing a (single) trailing slash and then a trailing `.git`, and accept
iff the result has the exact `scheme://github.com/owner/repo` shape. -/
def claimC7Accepts (s : String) : Bool :=
  shapeOk ⟨dropDotGit (dropOneSlash s).data⟩

/-- C7 amended, written from the spec side: trim surrounding whitespace,
strip all trailing slashes, then one trailing `.git` suffix; accept exactly
the `http(s)://github.com/owner/repo` shape. -/
def specRepoUrlOk (s : String) : Bool :=
  shapeOk ⟨dropDotGit (rstripSlash (pyStrip s)).data⟩

/-- C7 counterexample: on `https://github.com/owner/repo//` the code strips
both trailing slashes and accepts the URL, while the claim's
normalization (one trailing slash) leaves a slash and predicts rejection. -/
theorem C7_counterexample :
    validate_repo_url "https://github.com/owner/repo//" =
      Except.ok "https://github.com/owner/repo" ∧
    claimC7Accepts "https://github.com/owner/repo//" = false :=
  ⟨rfl, rfl⟩

/-- C7 (amended): `validate_repo_url` first trims whitespace, strips all
trailing slashes and then one trailing `.git`, and accepts iff the result
matches `scheme://github.com/owner/repo` exactly (http or https on the
fixed host `github.com`); otherwise it rejects with the invalid-URL error. -/
theorem C7_theorem (s : String) :
    (specRepoUrlOk s = true →
      validate_repo_url s = Except.ok ⟨dropDotGit (rstripSlash (pyStrip s)).data⟩) ∧
    (specRepoUrlOk s = false →
      validate_repo_url s =
        Except.error "Invalid repo URL. Use: https://github.com/owner/repo") := by
  unfold validate_repo_url specRepoUrlOk
  constructor
  · intro h
    simp [h]
  · intro h
    simp [h]

/-- C7 witness: the amended theorem applied at a concrete accepted URL. -/
theorem C7_witness :
    specRepoUrlOk "https://github.com/owner/repo.git" = true ∧
    validate_repo_url "https://github.com/owner/repo.git" =
      Except.ok "https://github.com/owner/repo" :=
  ⟨rfl, ( C7_theorem "https://github.com/owner/repo.git").1 rfl⟩

/-! ## C9: repository resolution bootstraps a literal `main` branch -/

/-- C9: whenever the repository has no branch literally named `main`
(`branch_check` not 200), `get_repo_info` commits the placeholder `.init`
file onto `main`, patches the repository's default branch to `main`, and
returns `main` as the default branch — regardless of the default branch
`renv.repoDefault` the repository actually reported (e.g. `master`). -/
theorem C9_theorem (link n : String) (renv : RepoEnv)
    (hok : validate_repo_url link = Except.ok n)
    (h200 : renv.repoStatus = 200)
    (hmain : renv.branchMainStatus ≠ 200)
    (hcreate : renv.createInitStatus = 200 ∨ renv.createInitStatus = 201)
    (hpatch : renv.patchStatus = 200) :
    get_repo_info link renv =
      (Except.ok ((lastTwoParts n).1, (lastTwoParts n).2, "main"),
       [Eff.getRepo, Eff.getBranchMain, Eff.putContents ".init" "main",
        Eff.patchDefaultBranch "main"]) := by
  unfold get_repo_info
  rw [hok]
  rcases hcreate with hc | hc <;>
    simp [h200, hmain, hc, hpatch]

/-- C9 witness: a repository whose reported default branch is `master` and
which lacks a `main` branch; resolution returns `main` after the bootstrap. -/
theorem C9_witness :
    get_repo_info "https://github.com/o/r"
      ⟨200, "", "master", 404, 201, "", 200, ""⟩ =
      (Except.ok ("o", "r", "main"),
       [Eff.getRepo, Eff.getBranchMain, Eff.putContents ".init" "main",
        Eff.patchDefaultBranch "main"]) := by
  have h := C9_theorem "https://github.com/o/r" "https://github.com/o/r"
    ⟨200, "", "master", 404, 201, "", 200, ""⟩ rfl rfl (by decide) (Or.inr rfl) rfl
  rw [h]
  rfl

/-! ## Lemmas about the per-file upload loop -/

lemma uploadLoop_cons_uploaded (fr : String → FileRes) (br f : String)
    (rest out up effs) (hf : fr f = FileRes.uploaded) :
    uploadLoop fr br (f :: rest) out up effs =
      uploadLoop fr br rest (out ++ ["Uploaded: " ++ f]) (up ++ [f])
        (effs ++ [Eff.putContents f br]) := by
  simp [uploadLoop, hf]

lemma uploadLoop_cons_putFailed (fr : String → FileRes) (br f m : String)
    (rest out up effs) (hf : fr f = FileRes.putFailed m) :
    uploadLoop fr br (f :: rest) out up effs =
      uploadLoop fr br rest (out ++ ["Error uploading " ++ f ++ ": " ++ m]) up
        (effs ++ [Eff.putContents f br]) := by
  simp [uploadLoop, hf]

lemma uploadLoop_cons_readFailed (fr : String → FileRes) (br f m : String)
    (rest out up effs) (hf : fr f = FileRes.readFailed m) :
    uploadLoop fr br (f :: rest) out up effs =
      uploadLoop fr br rest (out ++ ["Error processing " ++ f ++ ": " ++ m]) up effs := by
  simp [uploadLoop, hf]

lemma uploadLoop_up_mono (fr : String → FileRes) (br : String) (fs out up effs)
    (x : String) (h : x ∈ up) : x ∈ (uploadLoop fr br fs out up effs).2.1 := by
  induction fs generalizing out up effs with
  | nil => exact h
  | cons f rest ih =>
    cases hf : fr f with
    | uploaded =>
      rw [uploadLoop_cons_uploaded fr br f rest out up effs hf]
      exact ih _ _ _ (by simp [h])
    | putFailed m =>
      rw [uploadLoop_cons_putFailed fr br f m rest out up effs hf]
      exact ih _ _ _ h
    | readFailed m =>
      rw [uploadLoop_cons_readFailed fr br f m rest out up effs hf]
      exact ih _ _ _ h

lemma uploadLoop_effs_mono (fr : String → FileRes) (br : String) (fs out up effs)
    (e : Eff) (h : e ∈ effs) : e ∈ (uploadLoop fr br fs out up effs).2.2 := by
  induction fs generalizing out up effs with
  | nil => exact h
  | cons f rest ih =>
    cases hf : fr f with
    | uploaded =>
      rw [uploadLoop_cons_uploaded fr br f rest out up effs hf]
      exact ih _ _ _ (by simp [h])
    | putFailed m =>
      rw [uploadLoop_cons_putFailed fr br f m rest out up effs hf]
      exact ih _ _ _ (by simp [h])
    | readFailed m =>
      rw [uploadLoop_cons_readFailed fr br f m rest out up effs hf]
      exact ih _ _ _ h

/-! ## C10: README injection on the upload path -/

/-- C10: when `readme.md` is reported absent (404) on the target branch and
the generated README upload succeeds, the upload run checks for
`readme.md`, uploads a `README.md` that is not part of the local listing,
and counts it among the uploaded files — so the result reports a success
for a file that does not exist in the source directory. -/
theorem C10_theorem (dir branch default_branch : String) (fs : List String)
    (env : UploadEnv)
    (h404 : env.readmeStatus = 404)
    (hup : env.readmeUpStatus = 200 ∨ env.readmeUpStatus = 201)
    (href : env.refStatus = 200)
    (hnot : "README.md" ∉ fs) :
    Eff.getContentsFile "readme.md" branch ∈
      (upload_files_to_github true dir fs branch default_branch env).2.2 ∧
    Eff.putContents "README.md" branch ∈
      (upload_files_to_github true dir fs branch default_branch env).2.2 ∧
    "README.md" ∈ (upload_files_to_github true dir fs branch default_branch env).2.1 ∧
    "README.md" ∉ fs := by
  have hbody : upload_files_to_github true dir fs branch default_branch env =
      uploadLoop env.fileRes branch fs
        (["Uploaded README.md"] ++ ["Branch " ++ branch ++ " exists, updating"])
        ["README.md"]
        ([Eff.getContentsFile "readme.md" branch, Eff.putContents "README.md" branch] ++
          [Eff.getRef branch]) := by
    rcases hup with hu | hu <;> simp [upload_files_to_github, h404, hu, href]
  refine ⟨?_, ?_, ?_, hnot⟩
  · rw [hbody]; exact uploadLoop_effs_mono _ _ _ _ _ _ _ (by simp)
  · rw [hbody]; exact uploadLoop_effs_mono _ _ _ _ _ _ _ (by simp)
  · rw [hbody]; exact uploadLoop_up_mono _ _ _ _ _ _ _ (by simp)

/-- C10 witness: a one-file vault whose remote branch lacks `readme.md`. -/
theorem C10_witness :
    "README.md" ∈ (upload_files_to_github true "/vault" ["note.md"] "main" "main"
      ⟨404, 201, "", 200, "sha", 200, "", "sha", 201, "", fun _ => FileRes.uploaded⟩).2.1 ∧
    "README.md" ∉ ["note.md"] :=
  ⟨( C10_theorem "/vault" "main" "main" ["note.md"] _ rfl (Or.inr rfl) rfl
      (by decide)).2.2.1,
   by decide⟩

/-! ## C8: the zip archiver's failure contract -/

/-- C8: `create_zip` fails (returns an error result instead of the success
message) exactly when the source is not a directory or the destination
archive cannot be written; in both failure cases the effect trace is empty
(no partial artifact exists, nothing was touched), and a successful run's
only effect is writing the destination archive — the source tree is never
mutated. -/
theorem C8_theorem (vaultIsDir : Bool) (zipExc : Option String)
    (vault zipPath : String) :
    (vaultIsDir = false →
      create_zip vaultIsDir zipExc vault zipPath =
        ("Error: Vault " ++ vault ++ " not found", [])) ∧
    (∀ m, vaultIsDir = true → zipExc = some m →
      create_zip vaultIsDir zipExc vault zipPath =
        ("Zip creation failed: " ++ m, [])) ∧
    (vaultIsDir = true → zipExc = none →
      create_zip vaultIsDir zipExc vault zipPath =
        ("Created zip: " ++ zipPath, [Eff.zipWrite zipPath])) ∧
    ((create_zip vaultIsDir zipExc vault zipPath).1 = "Created zip: " ++ zipPath →
      ∀ e ∈ (create_zip vaultIsDir zipExc vault zipPath).2, e = Eff.zipWrite zipPath) := by
  refine ⟨?_, ?_, ?_, ?_⟩
  · intro h; simp [create_zip, h]
  · intro m h hz; simp [create_zip, h, hz]
  · intro h hz; simp [create_zip, h, hz]
  · intro _ e he
    cases vaultIsDir <;> cases zipExc <;> simp_all [create_zip]

/-- C8 witness: a path that is not a directory fails with the error result
and an empty trace; a good run writes only the destination archive. -/
theorem C8_witness :
    create_zip false none "/missing" "backup.zip" =
      ("Error: Vault /missing not found", []) ∧
    create_zip true none "/vault" "backup.zip" =
      ("Created zip: backup.zip", [Eff.zipWrite "backup.zip"]) :=
  ⟨(C8_theorem false none "/missing" "backup.zip").1 rfl,
   (C8_theorem true none "/vault" "backup.zip").2.2.1 rfl rfl⟩

/-! ## C6: restore selects the greatest artifact name -/

lemma listLt_cons (x z : Char) (s u : List Char) :
    listLt (x :: s) (z :: u) =
      if x.toNat < z.toNat then true
      else if z.toNat < x.toNat then false
      else listLt s u := by
  simp [listLt, charLt]

lemma listLt_trans (a b c : List Char) (h1 : listLt a b = true)
    (h2 : listLt b c = true) : listLt a c = true := by
  induction a generalizing b c with
  | nil =>
    cases b with
    | nil => exact absurd h1 (by simp [listLt])
    | cons y t =>
      cases c with
      | nil => exact absurd h2 (by simp [listLt])
      | cons z u => rfl
  | cons x s ih =>
    cases b with
    | nil => exact absurd h1 (by simp [listLt])
    | cons y t =>
      cases c with
      | nil => exact absurd h2 (by simp [listLt])
      | cons z u =>
        rw [listLt_cons] at h1 h2 ⊢
        by_cases hxy : x.toNat < y.toNat
        · by_cases hyz : y.toNat < z.toNat
          · rw [if_pos (by omega)]
          · rw [if_neg hyz] at h2
            by_cases hzy : z.toNat < y.toNat
            · rw [if_pos hzy] at h2
              exact absurd h2 (by simp)
            · rw [if_pos (by omega)]
        · rw [if_neg hxy] at h1
          by_cases hyx : y.toNat < x.toNat
          · rw [if_pos hyx] at h1
            exact absurd h1 (by simp)
          · rw [if_neg hyx] at h1
            by_cases hyz : y.toNat < z.toNat
            · rw [if_pos (by omega)]
            · rw [if_neg hyz] at h2
              by_cases hzy : z.toNat < y.toNat
              · rw [if_pos hzy] at h2
                exact absurd h2 (by simp)
              · rw [if_neg hzy] at h2
                rw [if_neg (by omega), if_neg (by omega)]
                exact ih t u h1 h2

lemma listLt_trans_nlt (r a y : List Char) (h1 : listLt r y = true)
    (h2 : listLt a y = false) : listLt r a = true := by
  induction r generalizing a y with
  | nil =>
    cases y with
    | nil => exact absurd h1 (by simp [listLt])
    | cons z u =>
      cases a with
      | nil => exact absurd h2 (by simp [listLt])
      | cons w v => rfl
  | cons x s ih =>
    cases y with
    | nil => exact absurd h1 (by simp [listLt])
    | cons z u =>
      cases a with
      | nil => exact absurd h2 (by simp [listLt])
      | cons w v =>
        rw [listLt_cons] at h1 h2 ⊢
        by_cases hwz : w.toNat < z.toNat
        · rw [if_pos hwz] at h2
          exact absurd h2 (by simp)
        · rw [if_neg hwz] at h2
          by_cases hxz : x.toNat < z.toNat
          · rw [if_pos (by omega)]
          · rw [if_neg hxz] at h1
            by_cases hzx : z.toNat < x.toNat
            · rw [if_pos hzx] at h1
              exact absurd h1 (by simp)
            · rw [if_neg hzx] at h1
              by_cases hzw : z.toNat < w.toNat
              · rw [if_pos (by omega)]
              · rw [if_neg hzw] at h2
                rw [if_neg (by omega), if_neg (by omega)]
                exact ih v u h1 h2

lemma strLtPy_trans (a b c : String) (h1 : strLtPy a b = true)
    (h2 : strLtPy b c = true) : strLtPy a c = true :=
  listLt_trans _ _ _ h1 h2

lemma strLtPy_trans_nlt (r a y : String) (h1 : strLtPy r y = true)
    (h2 : strLtPy a y = false) : strLtPy r a = true :=
  listLt_trans_nlt _ _ _ h1 h2

lemma maxFold_mem (a : BItem) (l : List BItem) :
    l.foldl (fun acc y => if strLtPy acc.name y.name then y else acc) a ∈ a :: l := by
  induction l generalizing a with
  | nil => simp
  | cons y ys ih =>
    have h := ih (if strLtPy a.name y.name then y else a)
    simp only [List.foldl_cons]
    rcases List.mem_cons.1 h with h1 | h1
    · cases hc : strLtPy a.name y.name
      · rw [if_neg (by simp [hc])] at h1
        simp [hc, h1]
      · rw [if_pos hc] at h1
        simp [hc, h1]
    · simp [h1]

lemma listLt_irrefl (a : List Char) : listLt a a = false := by
  induction a with
  | nil => rfl
  | cons x s ih =>
    simp only [listLt]
    split_ifs <;> simp_all [charLt]

/-- The fold of Python's `max` never ends strictly below its seed or below
any element of the list. -/
lemma maxFold_ge (a : BItem) (l : List BItem) :
    strLtPy (l.foldl (fun acc y => if strLtPy acc.name y.name then y else acc) a).name
      a.name = false ∧
    ∀ y ∈ l,
      strLtPy (l.foldl (fun acc y => if strLtPy acc.name y.name then y else acc) a).name
        y.name = false := by
  induction l generalizing a with
  | nil => exact ⟨listLt_irrefl _, by simp⟩
  | cons y ys ih =>
    simp only [List.foldl_cons, List.mem_cons]
    cases hc : strLtPy a.name y.name
    · rw [if_neg (by simp)]
      have h := ih a
      refine ⟨h.1, ?_⟩
      rintro z (rfl | hz)
      · cases hr : strLtPy
          (ys.foldl (fun acc y => if strLtPy acc.name y.name then y else acc) a).name
          z.name
        · rfl
        · exact absurd (strLtPy_trans_nlt _ _ _ hr hc) (by simp [h.1])
      · exact h.2 z hz
    · rw [if_pos rfl]
      have h := ih y
      refine ⟨?_, ?_⟩
      · cases hr : strLtPy
          (ys.foldl (fun acc y => if strLtPy acc.name y.name then y else acc) y).name
          a.name
        · rfl
        · exact absurd (strLtPy_trans _ _ _ hr hc) (by simp [h.1])
      · rintro z (rfl | hz)
        · exact h.1
        · exact h.2 z hz

lemma maxByName_spec (l : List BItem) (x : BItem) (h : maxByName l = some x) :
    x ∈ l ∧ ∀ y ∈ l, strLtPy x.name y.name = false := by
  cases l with
  | nil => simp [maxByName] at h
  | cons a as =>
    simp only [maxByName, Option.some.injEq] at h
    subst h
    refine ⟨maxFold_mem a as, ?_⟩
    intro y hy
    rcases List.mem_cons.1 hy with rfl | hy
    · exact (maxFold_ge y as).1
    · exact (maxFold_ge a as).2 y hy

/-- Filenames of the repository's own backup naming scheme
`backup_{timestamp}.zip` (the pattern referred to by claim C6). -/
def specBackupPattern (n : String) : Bool :=
  strStarts n "backup_" && endsZip n

/-- C6 counterexample: with artifacts `backup_20240101_000000.zip` and
`zzz.zip` on the backup branch, the code selects `zzz.zip` — the greatest
name among all `.zip` entries — although it does not match the backup
naming pattern, while a pattern-matching artifact exists. -/
theorem C6_counterexample :
    (restore_remote_vault "/vault"
      ⟨200, "", [⟨"backup_20240101_000000.zip", "u1"⟩, ⟨"zzz.zip", "u2"⟩],
        200, true⟩).1 =
      ["Downloaded backup: zzz.zip", "Restored vault from zzz.zip"] ∧
    specBackupPattern "zzz.zip" = false ∧
    specBackupPattern "backup_20240101_000000.zip" = true := by
  refine ⟨?_, by decide, by decide⟩
  rfl

/-- C6 (amended): the restore sub-flow lists the backup branch, selects the
lexicographically greatest filename ending in `.zip` (the selected entry is
a `.zip` entry and no other `.zip` entry has a greater name), downloads it,
and replaces the target directory (remove when present, recreate, extract);
when no `.zip` artifact exists it stops with a clear error line and
performs no further effect. -/
theorem C6_theorem (vault : String) (env : RestoreEnv)
    (h200 : env.contentsStatus = 200) :
    (env.items.filter (fun it => endsZip it.name) = [] →
      restore_remote_vault vault env =
        (["Error: No backups found in backup branch"], [Eff.getContents "backup"])) ∧
    (∀ sel, maxByName (env.items.filter (fun it => endsZip it.name)) = some sel →
      env.downloadStatus = 200 →
      restore_remote_vault vault env =
        (["Downloaded backup: " ++ sel.name, "Restored vault from " ++ sel.name],
         [Eff.getContents "backup", Eff.download sel.url, Eff.writeFile TEMP_BACKUP] ++
          (if env.vaultExists then [Eff.rmTree vault] else []) ++
          [Eff.makeDirs vault, Eff.extractZip vault, Eff.removeFile TEMP_BACKUP]) ∧
      sel ∈ env.items.filter (fun it => endsZip it.name) ∧
      ∀ y ∈ env.items.filter (fun it => endsZip it.name),
        strLtPy sel.name y.name = false) := by
  constructor
  · intro hnil
    simp [restore_remote_vault, h200, hnil, maxByName]
  · intro sel hsel hdl
    have hs := maxByName_spec _ _ hsel
    refine ⟨?_, hs.1, hs.2⟩
    simp [restore_remote_vault, h200, hsel, hdl]

/-- C6 witness: two pattern-named artifacts; the later timestamp is chosen
and the directory is wiped, recreated and extracted into. -/
theorem C6_witness :
    restore_remote_vault "/vault"
      ⟨200, "", [⟨"backup_20240101_000000.zip", "u1"⟩,
        ⟨"backup_20240601_000000.zip", "u2"⟩], 200, true⟩ =
      (["Downloaded backup: backup_20240601_000000.zip",
        "Restored vault from backup_20240601_000000.zip"],
       [Eff.getContents "backup", Eff.download "u2", Eff.writeFile TEMP_BACKUP] ++
        [Eff.rmTree "/vault"] ++
        [Eff.makeDirs "/vault", Eff.extractZip "/vault", Eff.removeFile TEMP_BACKUP]) :=
  (( C6_theorem "/vault" _ rfl).2 ⟨"backup_20240601_000000.zip", "u2"⟩
    (by decide) rfl).1

/-! ## C3: remote backup performs no rotation -/

/-- Does an effect create or move a ref of any branch other than `backup`
(what a "previous backup" rotation would have to do)? -/
def isRotEff : Eff → Bool
  | Eff.createRef b _ => b != "backup"
  | _ => false

/-- Does the trace touch a secondary (rotation) branch at all? -/
def rotatedAny (effs : List Eff) : Bool := effs.any isRotEff

/-- Artifact file paths committed onto the `backup` branch by a trace. -/
def artEntry : Eff → Option String
  | Eff.putContents p b => if b == "backup" then some p else none
  | _ => none

def backupArtifacts (effs : List Eff) : List String := effs.filterMap artEntry

lemma rotatedAny_mergeList (l : List Nat) :
    rotatedAny (l.map (fun n => Eff.mergePR n)) = false := by
  induction l with
  | nil => rfl
  | cons n t ih => simpa [rotatedAny, isRotEff] using ih

lemma backupArtifacts_mergeList (l : List Nat) :
    backupArtifacts (l.map (fun n => Eff.mergePR n)) = [] := by
  induction l with
  | nil => rfl
  | cons n t ih => simpa [backupArtifacts, artEntry] using ih

lemma automerge_rotatedAny (penv : PrEnv) :
    rotatedAny (auto_merge_pull_requests penv).2 = false := by
  unfold auto_merge_pull_requests
  split
  · rfl
  · simpa [rotatedAny, isRotEff] using rotatedAny_mergeList penv.prs

lemma automerge_backupArtifacts (penv : PrEnv) :
    backupArtifacts (auto_merge_pull_requests penv).2 = [] := by
  unfold auto_merge_pull_requests
  split
  · rfl
  · simpa [backupArtifacts, artEntry] using backupArtifacts_mergeList penv.prs

/-- C3 counterexample: with the `backup` branch already existing
(ref lookup answers 200) and uploads succeeding, two consecutive remote
backups perform no ref creation or fast-forward of any secondary
"previous backup" branch whatsoever, and both timestamped artifacts end up
on the same `backup` branch — not "exactly one current and one previous". -/
theorem C3_counterexample :
    rotatedAny (remote_backup_vault true none none "/vault" "20240101_000000"
      "main" ⟨200, 200, "", "sha", 201, "", 201, ""⟩
      ⟨200, "", [], fun _ => 200, fun _ => ""⟩).2 = false ∧
    backupArtifacts
      ((remote_backup_vault true none none "/vault" "20240101_000000" "main"
          ⟨200, 200, "", "sha", 201, "", 201, ""⟩
          ⟨200, "", [], fun _ => 200, fun _ => ""⟩).2 ++
        (remote_backup_vault true none none "/vault" "20240615_000000" "main"
          ⟨200, 200, "", "sha", 201, "", 201, ""⟩
          ⟨200, "", [], fun _ => 200, fun _ => ""⟩).2) =
      ["backup_20240101_000000.zip", "backup_20240615_000000.zip"] := by
  constructor
  · rfl
  · rfl

/-- C3 (amended): when the backup branch already exists, `remote_backup_vault`
reuses it unchanged — it performs no rotation into any secondary branch —
and uploads one fresh timestamped artifact onto `backup`; consequently two
consecutive backups leave both artifacts on the `backup` branch. -/
theorem C3_theorem (vault ts1 ts2 default_branch : String) (env : BackupEnv)
    (penv : PrEnv) (hex : env.backupRefStatus = 200)
    (hup : env.uploadStatus = 200 ∨ env.uploadStatus = 201) :
    remote_backup_vault true none none vault ts1 default_branch env penv =
      (["Created zip: " ++ TEMP_BACKUP, "Uploaded remote backup"] ++
        (auto_merge_pull_requests penv).1,
       [Eff.zipWrite TEMP_BACKUP, Eff.getRef "backup",
        Eff.putContents ("backup_" ++ ts1 ++ ".zip") "backup",
        Eff.removeFile TEMP_BACKUP] ++ (auto_merge_pull_requests penv).2) ∧
    rotatedAny
      (remote_backup_vault true none none vault ts1 default_branch env penv).2 =
      false ∧
    backupArtifacts
      ((remote_backup_vault true none none vault ts1 default_branch env penv).2 ++
        (remote_backup_vault true none none vault ts2 default_branch env penv).2) =
      ["backup_" ++ ts1 ++ ".zip", "backup_" ++ ts2 ++ ".zip"] := by
  have hpy : pyIn "Error" ("Created zip: " ++ TEMP_BACKUP) = false := by decide
  have key : ∀ ts, remote_backup_vault true none none vault ts default_branch env penv =
      (["Created zip: " ++ TEMP_BACKUP, "Uploaded remote backup"] ++
        (auto_merge_pull_requests penv).1,
       [Eff.zipWrite TEMP_BACKUP, Eff.getRef "backup",
        Eff.putContents ("backup_" ++ ts ++ ".zip") "backup",
        Eff.removeFile TEMP_BACKUP] ++ (auto_merge_pull_requests penv).2) := by
    intro ts
    rcases hup with hu | hu <;>
      simp [remote_backup_vault, create_zip, hpy, hex, hu]
  refine ⟨key ts1, ?_, ?_⟩
  · rw [key ts1]
    have h := automerge_rotatedAny penv
    simp only [rotatedAny, List.any_append] at h ⊢
    simp [isRotEff, h]
  · rw [key ts1, key ts2]
    have h := automerge_backupArtifacts penv
    simp only [backupArtifacts, List.filterMap_append] at h ⊢
    simp [artEntry, h]

/-- C3 witness: the amended theorem at a concrete environment. -/
theorem C3_witness :
    remote_backup_vault true none none "/v" "20240101_000000" "main"
      ⟨200, 200, "", "sha", 201, "", 200, ""⟩
      ⟨200, "", [], fun _ => 200, fun _ => ""⟩ =
      (["Created zip: " ++ TEMP_BACKUP, "Uploaded remote backup"],
       [Eff.zipWrite TEMP_BACKUP, Eff.getRef "backup",
        Eff.putContents "backup_20240101_000000.zip" "backup",
        Eff.removeFile TEMP_BACKUP, Eff.getPulls]) := by
  have h := ( C3_theorem "/v" "20240101_000000" "20240101_000000" "main"
    ⟨200, 200, "", "sha", 201, "", 200, ""⟩
    ⟨200, "", [], fun _ => 200, fun _ => ""⟩ rfl (Or.inl rfl)).1
  rw [h]
  rfl

/-! ## C1: input validation -/

/-- The reject condition exactly as claim C1 states it: a required field
(token/username, email, repository URL, local vault path) is empty, the two
configured directories are equal, or the email lacks `@`.  `dir2` is the
optional second directory (the desktop variant's OneDrive vault). -/
def claimC1Rejects (token email repoUrl vault : String)
    (dir2 : Option String) : Prop :=
  token = "" ∨ email = "" ∨ repoUrl = "" ∨ vault = "" ∨
  dir2 = some vault ∨ pyIn "@" email = false

/-- C1 counterexample: in the Kivy variant, with every required field
filled, a well-formed email, and no second directory, validation still
rejects when the vault path is not a directory — a condition absent from
the claim's list. -/
theorem C1_counterexample :
    (mainValidationError
      ⟨"tok", "a@b.c", "https://github.com/o/r", "", "/vault", ""⟩
      (fun _ => false)).isSome = true ∧
    ¬ claimC1Rejects "tok" "a@b.c" "https://github.com/o/r" "/vault" none := by
  constructor
  · rfl
  · unfold claimC1Rejects
    decide

/-- C1 amended, Kivy variant: reject iff a required field (token, email,
repo URL, vault path) is empty after stripping, the email lacks `@`, or the
vault path is not a directory. -/
def specMainRejects (f : MainFields) (isDir : String → Bool) : Prop :=
  pyStrip f.username = "" ∨ pyStrip f.email = "" ∨ pyStrip f.repoLink = "" ∨
  pyStrip f.localVault = "" ∨ pyIn "@" (pyStrip f.email) = false ∨
  isDir (pyStrip f.localVault) = false

/-- C1 amended, desktop variant: reject iff a required field is empty after
stripping, the optional second directory is supplied and equals the vault
after path normalization, or a configured directory does not exist (the
desktop variant performs no email shape check). -/
def specSyncerRejects (f : SyncerFields) (np : String → String)
    (isDir : String → Bool) : Prop :=
  pyStrip f.username = "" ∨ pyStrip f.email = "" ∨ pyStrip f.repoLink = "" ∨
  pyStrip f.localVault = "" ∨
  (pyStrip f.onedriveVault ≠ "" ∧
    np (pyStrip f.localVault) = np (pyStrip f.onedriveVault)) ∨
  isDir (pyStrip f.localVault) = false ∨
  (pyStrip f.onedriveVault ≠ "" ∧ isDir (pyStrip f.onedriveVault) = false)

/-- C1 (amended): in each variant, validation rejects iff a required field
is empty, the email lacks `@` (Kivy variant only), the two configured
directories are equal after normalization (desktop variant only, when the
second directory is supplied), or a configured directory does not exist;
and whenever validation rejects, the run performs no side effect at all —
no cache write, no remote call, no git command. -/
theorem C1_theorem (f : MainFields) (sf : SyncerFields)
    (isDir : String → Bool) (np : String → String) (walk : List String)
    (renv : RepoEnv) (cacheOk : Bool) (uenv : UploadEnv) (wenv : WfEnv)
    (penv : PrEnv) (w1 w2 : GitWorld) :
    ((mainValidationError f isDir).isSome ↔ specMainRejects f isDir) ∧
    (∀ m, mainValidationError f isDir = some m →
      runCommandsMain f isDir walk renv cacheOk uenv wenv penv = ([m], [])) ∧
    ((syncerValidationError sf np isDir).isSome ↔ specSyncerRejects sf np isDir) ∧
    (∀ m, syncerValidationError sf np isDir = some m →
      runCommandsSyncer sf np isDir w1 w2 = ([m], [])) := by
  refine ⟨?_, ?_, ?_, ?_⟩
  · unfold mainValidationError specMainRejects
    dsimp only
    split_ifs with h1 h2 h3 <;> simp_all <;> tauto
  · intro m hm
    simp [runCommandsMain, hm]
  · unfold syncerValidationError specSyncerRejects
    dsimp only
    split_ifs with h1 h2 h3 h4 <;> simp_all <;> tauto
  · intro m hm
    simp [runCommandsSyncer, hm]

/-- C1 witness: empty required fields are rejected with no side effect, in
both variants. -/
theorem C1_witness :
    runCommandsMain ⟨"", "", "", "", "", ""⟩ (fun _ => true) []
      ⟨200, "", "main", 200, 201, "", 200, ""⟩ true
      ⟨200, 201, "", 200, "s", 200, "", "s", 201, "", fun _ => FileRes.uploaded⟩
      ⟨204, "", fun _ => PollRes.ok [], fun _ => ⟨200, []⟩⟩
      ⟨200, "", [], fun _ => 200, fun _ => ""⟩ =
      (["Error: Fill all required fields."], []) ∧
    runCommandsSyncer ⟨"", "", "", "", "", ""⟩ (fun s => s) (fun _ => true)
      ⟨true, .ok "", .ok "", .ok "", .ok "", .ok "", .ok "", .ok "", .ok "",
        .ok "", .ok "", .ok "", .ok "", .ok "", .ok "", .ok ""⟩
      ⟨true, .ok "", .ok "", .ok "", .ok "", .ok "", .ok "", .ok "", .ok "",
        .ok "", .ok "", .ok "", .ok "", .ok "", .ok "", .ok ""⟩ =
      (["Error: Username, Email, Repository Link, and Local Vault Link are required."],
       []) := by
  constructor
  · exact ( C1_theorem ⟨"", "", "", "", "", ""⟩ ⟨"", "", "", "", "", ""⟩
      (fun _ => true) (fun s => s) []
      ⟨200, "", "main", 200, 201, "", 200, ""⟩ true
      ⟨200, 201, "", 200, "s", 200, "", "s", 201, "", fun _ => FileRes.uploaded⟩
      ⟨204, "", fun _ => PollRes.ok [], fun _ => ⟨200, []⟩⟩
      ⟨200, "", [], fun _ => 200, fun _ => ""⟩
      ⟨true, .ok "", .ok "", .ok "", .ok "", .ok "", .ok "", .ok "", .ok "",
        .ok "", .ok "", .ok "", .ok "", .ok "", .ok "", .ok ""⟩
      ⟨true, .ok "", .ok "", .ok "", .ok "", .ok "", .ok "", .ok "", .ok "",
        .ok "", .ok "", .ok "", .ok "", .ok "", .ok "", .ok ""⟩).2.1
      "Error: Fill all required fields." rfl
  · exact ( C1_theorem ⟨"", "", "", "", "", ""⟩ ⟨"", "", "", "", "", ""⟩
      (fun _ => true) (fun s => s) []
      ⟨200, "", "main", 200, 201, "", 200, ""⟩ true
      ⟨200, 201, "", 200, "s", 200, "", "s", 201, "", fun _ => FileRes.uploaded⟩
      ⟨204, "", fun _ => PollRes.ok [], fun _ => ⟨200, []⟩⟩
      ⟨200, "", [], fun _ => 200, fun _ => ""⟩
      ⟨true, .ok "", .ok "", .ok "", .ok "", .ok "", .ok "", .ok "", .ok "",
        .ok "", .ok "", .ok "", .ok "", .ok "", .ok "", .ok ""⟩
      ⟨true, .ok "", .ok "", .ok "", .ok "", .ok "", .ok "", .ok "", .ok "",
        .ok "", .ok "", .ok "", .ok "", .ok "", .ok "", .ok ""⟩).2.2.2
      "Error: Username, Email, Repository Link, and Local Vault Link are required." rfl

/-! ## C5: the two-stage merge fallback -/

lemma pushPhase_effs_mono (d : String) (w : GitWorld) (out : List String)
    (effs : List Eff) (e : Eff) (h : e ∈ effs) : e ∈ (pushPhase d w out effs).2 := by
  unfold pushPhase
  cases hp : w.push <;> simp [h]

lemma postMergePhase_effs_mono (d c : String) (w : GitWorld) (out : List String)
    (effs : List Eff) (e : Eff) (h : e ∈ effs) :
    e ∈ (postMergePhase d c w out effs).2 := by
  unfold postMergePhase
  by_cases hs : has_uncommitted_changes w.statusAfter
  · rw [if_pos hs]
    cases ha : w.addAfter with
    | err m s => simp [h]
    | ok s =>
      cases hcm : w.commitAfter with
      | err m s => simp [h]
      | ok s2 => exact pushPhase_effs_mono _ _ _ _ _ (by simp [h])
  · rw [if_neg hs]
    exact pushPhase_effs_mono _ _ _ _ _ (by simp [h])

lemma pushPhase_effs (d : String) (w : GitWorld) (out : List String)
    (effs : List Eff) (e : Eff) (he : e ∈ (pushPhase d w out effs).2) :
    e ∈ effs ∨ e = Eff.gitCmd ["git", "push", "origin", "master"] := by
  unfold pushPhase at he
  cases hp : w.push <;> rw [hp] at he <;> simp at he <;> tauto

lemma postMergePhase_effs (d c : String) (w : GitWorld) (out : List String)
    (effs : List Eff) (e : Eff) (he : e ∈ (postMergePhase d c w out effs).2) :
    e ∈ effs ∨ e = Eff.gitCmd ["git", "status", "--porcelain"] ∨
    e = Eff.gitCmd ["git", "add", "."] ∨
    e = Eff.gitCmd ["git", "commit", "-m", c] ∨
    e = Eff.gitCmd ["git", "push", "origin", "master"] := by
  unfold postMergePhase at he
  by_cases hs : has_uncommitted_changes w.statusAfter
  · rw [if_pos hs] at he
    cases ha : w.addAfter with
    | err m s =>
      rw [ha] at he
      simp at he
      tauto
    | ok s =>
      rw [ha] at he
      cases hcm : w.commitAfter with
      | err m s =>
        rw [hcm] at he
        simp at he
        tauto
      | ok s2 =>
        rw [hcm] at he
        rcases pushPhase_effs _ _ _ _ _ he with h | h
        · simp at h
          tauto
        · tauto
  · rw [if_neg hs] at he
    rcases pushPhase_effs _ _ _ _ _ he with h | h
    · simp at h
      tauto
    · tauto

lemma mergePhase_ok (d c : String) (w : GitWorld) (out : List String)
    (effs : List Eff) (s : String) (hm : w.mergePlain = GitRes.ok s) :
    mergePhase d c w out effs =
      postMergePhase d c w (out ++ ["Successfully merged with origin/master"])
        (effs ++ [Eff.gitCmd ["git", "merge", "origin/master", "--no-edit"]]) := by
  simp [mergePhase, hm]

lemma mergePhase_err_err (d c : String) (w : GitWorld) (out : List String)
    (effs : List Eff) (m1 s1 m2 s2 : String)
    (hm : w.mergePlain = GitRes.err m1 s1)
    (hf2 : w.mergeFallback = GitRes.err m2 s2) :
    mergePhase d c w out effs =
      (out ++ ["Standard merge failed, attempting with --allow-unrelated-histories...",
        "Failed to merge with --allow-unrelated-histories: " ++ m2 ++ "\n" ++ s2],
       effs ++ [Eff.gitCmd ["git", "merge", "origin/master", "--no-edit"],
        Eff.gitCmd ["git", "merge", "origin/master", "--no-edit",
          "--allow-unrelated-histories"]]) := by
  simp [mergePhase, hm, hf2]

lemma mergePhase_err_ok (d c : String) (w : GitWorld) (out : List String)
    (effs : List Eff) (m1 s1 s : String)
    (hm : w.mergePlain = GitRes.err m1 s1)
    (hf2 : w.mergeFallback = GitRes.ok s) :
    mergePhase d c w out effs =
      postMergePhase d c w
        (out ++ ["Standard merge failed, attempting with --allow-unrelated-histories...",
          "Successfully merged with --allow-unrelated-histories"])
        (effs ++ [Eff.gitCmd ["git", "merge", "origin/master", "--no-edit"],
          Eff.gitCmd ["git", "merge", "origin/master", "--no-edit",
            "--allow-unrelated-histories"]]) := by
  simp [mergePhase, hm, hf2]

/-- C5: on a run that reaches the merge step, the fallback merge with
`--allow-unrelated-histories` is attempted exactly when the plain merge
fails, and when the fallback also fails the run stops there: the log ends
with the failure line carrying the tool's diagnostic text and the trace
ends at the fallback merge command — no commit or push follows. -/
theorem C5_theorem (dir user mail rlink cmsg rv a1 a2 a3 a4 : String)
    (w : GitWorld)
    (hdir : w.dirExists = true) (hn : w.cfgName = GitRes.ok a1)
    (he : w.cfgEmail = GitRes.ok a2) (hrv : w.remoteV = GitRes.ok rv)
    (hor : pyIn "origin" rv = true) (hsu : w.setUrl = GitRes.ok a3)
    (hf : w.fetch = GitRes.ok a4) (hsb : w.statusBefore = GitRes.ok "") :
    ((∃ s, w.mergePlain = GitRes.ok s) →
      Eff.gitCmd ["git", "merge", "origin/master", "--no-edit",
        "--allow-unrelated-histories"] ∉ (run_git_commands dir user mail rlink cmsg w).2) ∧
    (∀ m1 s1, w.mergePlain = GitRes.err m1 s1 →
      Eff.gitCmd ["git", "merge", "origin/master", "--no-edit",
        "--allow-unrelated-histories"] ∈ (run_git_commands dir user mail rlink cmsg w).2) ∧
    (∀ m1 s1 m2 s2, w.mergePlain = GitRes.err m1 s1 →
      w.mergeFallback = GitRes.err m2 s2 →
      run_git_commands dir user mail rlink cmsg w =
        (["Changed to directory: " ++ dir,
          "Successfully configured Git user: " ++ user ++ " <" ++ mail ++ ">",
          "Successfully updated remote origin to " ++ rlink,
          "Successfully fetched Git repository",
          "No local changes to commit before merge",
          "Standard merge failed, attempting with --allow-unrelated-histories...",
          "Failed to merge with --allow-unrelated-histories: " ++ m2 ++ "\n" ++ s2],
         [Eff.chdir dir, Eff.gitCmd ["git", "config", "user.name", user],
          Eff.gitCmd ["git", "config", "user.email", mail],
          Eff.gitCmd ["git", "remote", "-v"],
          Eff.gitCmd ["git", "remote", "set-url", "origin", rlink],
          Eff.gitCmd ["git", "fetch", "origin"],
          Eff.gitCmd ["git", "status", "--porcelain"],
          Eff.gitCmd ["git", "merge", "origin/master", "--no-edit"],
          Eff.gitCmd ["git", "merge", "origin/master", "--no-edit",
            "--allow-unrelated-histories"]])) := by
  have hM : run_git_commands dir user mail rlink cmsg w =
      mergePhase dir (if pyStrip cmsg == "" then "Auto commit" else pyStrip cmsg) w
        (["Changed to directory: " ++ dir] ++
          ["Successfully configured Git user: " ++ user ++ " <" ++ mail ++ ">"] ++
          ["Successfully updated remote origin to " ++ rlink] ++
          ["Successfully fetched Git repository"] ++
          ["No local changes to commit before merge"])
        ([Eff.chdir dir, Eff.gitCmd ["git", "config", "user.name", user]] ++
          [Eff.gitCmd ["git", "config", "user.email", mail]] ++
          [Eff.gitCmd ["git", "remote", "-v"]] ++
          [Eff.gitCmd ["git", "remote", "set-url", "origin", rlink]] ++
          [Eff.gitCmd ["git", "fetch", "origin"]] ++
          [Eff.gitCmd ["git", "status", "--porcelain"]]) := by
    simp [run_git_commands, hdir, hn, he, check_remote_exists, hrv, hor, hsu,
      fetchPhase, hf, preMergePhase, hsb,
      show has_uncommitted_changes (GitRes.ok "") = false from rfl]
  refine ⟨?_, ?_, ?_⟩
  · rintro ⟨s, hm⟩ hmem
    rw [hM, mergePhase_ok _ _ _ _ _ _ hm] at hmem
    rcases postMergePhase_effs _ _ _ _ _ _ hmem with h | h | h | h | h <;>
      simp_all
  · intro m1 s1 hm
    rw [hM]
    cases hf2 : w.mergeFallback with
    | err m2 s2 =>
      rw [mergePhase_err_err _ _ _ _ _ _ _ _ _ hm hf2]
      simp
    | ok s2 =>
      rw [mergePhase_err_ok _ _ _ _ _ _ _ _ hm hf2]
      exact postMergePhase_effs_mono _ _ _ _ _ _ (by simp)
  · intro m1 s1 m2 s2 hm hf2
    rw [hM, mergePhase_err_err _ _ _ _ _ _ _ _ _ hm hf2]
    simp

/-- C5 witness: a world where both merges fail; the run ends at the
fallback merge with the diagnostic text in the final line. -/
theorem C5_witness :
    run_git_commands "/v" "alice" "a@b.c" "https://github.com/o/r" ""
      ⟨true, .ok "", .ok "", .ok "origin url (fetch)", .ok "", .ok "", .ok "",
        .ok "", .ok "", .ok "", .err "exit 1" "CONFLICT",
        .err "exit 1" "CONFLICT (content): Merge conflict in note.md",
        .ok "", .ok "", .ok "", .ok ""⟩ =
      (["Changed to directory: /v",
        "Successfully configured Git user: alice <a@b.c>",
        "Successfully updated remote origin to https://github.com/o/r",
        "Successfully fetched Git repository",
        "No local changes to commit before merge",
        "Standard merge failed, attempting with --allow-unrelated-histories...",
        "Failed to merge with --allow-unrelated-histories: exit 1\n" ++
          "CONFLICT (content): Merge conflict in note.md"],
       [Eff.chdir "/v", Eff.gitCmd ["git", "config", "user.name", "alice"],
        Eff.gitCmd ["git", "config", "user.email", "a@b.c"],
        Eff.gitCmd ["git", "remote", "-v"],
        Eff.gitCmd ["git", "remote", "set-url", "origin", "https://github.com/o/r"],
        Eff.gitCmd ["git", "fetch", "origin"],
        Eff.gitCmd ["git", "status", "--porcelain"],
        Eff.gitCmd ["git", "merge", "origin/master", "--no-edit"],
        Eff.gitCmd ["git", "merge", "origin/master", "--no-edit",
          "--allow-unrelated-histories"]]) := by
  exact ( C5_theorem "/v" "alice" "a@b.c" "https://github.com/o/r" ""
    "origin url (fetch)" "" "" "" "" _ rfl rfl rfl rfl (by decide) rfl rfl
    rfl).2.2 "exit 1" "CONFLICT" "exit 1"
    "CONFLICT (content): Merge conflict in note.md" rfl rfl

/-! ## C4: bounded workflow polling -/

/-- Number of run-listing requests (status-check attempts) in a trace. -/
def countGetRuns (l : List Eff) : Nat :=
  (l.filter (fun e => match e with | Eff.getRuns => true | _ => false)).length

lemma countGetRuns_append (a b : List Eff) :
    countGetRuns (a ++ b) = countGetRuns a + countGetRuns b := by
  simp [countGetRuns, List.filter_append]

/-- One poll answer that does not show a completed run: a 200 listing that
is empty or whose latest run is not `completed`. -/
def pollNotCompleted : PollRes → Prop
  | PollRes.fail _ => False
  | PollRes.ok [] => True
  | PollRes.ok (r :: _) => r.status ≠ "completed"

/-- One poll answer showing the latest run `completed`. -/
def pollCompleted : PollRes → Prop
  | PollRes.ok (r :: _) => r.status = "completed"
  | _ => False

/-- The effects of `n` fruitless polling iterations. -/
def timeoutBlock : Nat → List Eff
  | 0 => []
  | n + 1 => Eff.getRuns :: Eff.sleep 15 :: timeoutBlock n

lemma countGetRuns_timeoutBlock (n : Nat) :
    countGetRuns (timeoutBlock n) = n := by
  induction n with
  | zero => rfl
  | succ k ih => simp [timeoutBlock, countGetRuns, List.filter_cons] at ih ⊢; omega

lemma pollLoop_zero (p : Nat → PollRes) (j : Nat → JobsRes) (i : Nat)
    (out : List String) (effs : List Eff) :
    pollLoop p j i 0 out effs = (out ++ ["Workflow timed out"], effs) := rfl

lemma pollLoop_fail (p : Nat → PollRes) (j : Nat → JobsRes) (i fuel : Nat)
    (out : List String) (effs : List Eff) (m : String)
    (hp : p i = PollRes.fail m) :
    pollLoop p j i (fuel + 1) out effs =
      (out ++ ["Error checking workflow status: " ++ m], effs ++ [Eff.getRuns]) := by
  simp [pollLoop, hp]

lemma pollLoop_empty (p : Nat → PollRes) (j : Nat → JobsRes) (i fuel : Nat)
    (out : List String) (effs : List Eff) (hp : p i = PollRes.ok []) :
    pollLoop p j i (fuel + 1) out effs =
      pollLoop p j (i + 1) fuel out (effs ++ [Eff.getRuns, Eff.sleep 15]) := by
  simp [pollLoop, hp]

lemma pollLoop_progress (p : Nat → PollRes) (j : Nat → JobsRes) (i fuel : Nat)
    (out : List String) (effs : List Eff) (r : RunInfo) (rest : List RunInfo)
    (hp : p i = PollRes.ok (r :: rest)) (hs : r.status ≠ "completed") :
    pollLoop p j i (fuel + 1) out effs =
      pollLoop p j (i + 1) fuel out (effs ++ [Eff.getRuns, Eff.sleep 15]) := by
  simp [pollLoop, hp, hs]

lemma pollLoop_done_success (p : Nat → PollRes) (j : Nat → JobsRes) (i fuel : Nat)
    (out : List String) (effs : List Eff) (r : RunInfo) (rest : List RunInfo)
    (hp : p i = PollRes.ok (r :: rest)) (hs : r.status = "completed")
    (hc : r.conclusion = "success") :
    pollLoop p j i (fuel + 1) out effs =
      (out ++ ["Workflow completed successfully"], effs ++ [Eff.getRuns]) := by
  simp [pollLoop, hp, hs, hc]

lemma pollLoop_done_failure (p : Nat → PollRes) (j : Nat → JobsRes) (i fuel : Nat)
    (out : List String) (effs : List Eff) (r : RunInfo) (rest : List RunInfo)
    (hp : p i = PollRes.ok (r :: rest)) (hs : r.status = "completed")
    (hc : r.conclusion ≠ "success") :
    pollLoop p j i (fuel + 1) out effs =
      (out ++ failJobLines (j i) ++ ["Workflow failed: " ++ r.conclusion],
       effs ++ [Eff.getRuns, Eff.getJobs r.runId]) := by
  simp [pollLoop, hp, hs, hc]

lemma pollLoop_count_le (p : Nat → PollRes) (j : Nat → JobsRes) :
    ∀ fuel i out effs,
      countGetRuns (pollLoop p j i fuel out effs).2 ≤ countGetRuns effs + fuel := by
  intro fuel
  induction fuel with
  | zero =>
    intro i out effs
    rw [pollLoop_zero]
    simp
  | succ n ih =>
    intro i out effs
    cases hp : p i with
    | fail m =>
      rw [pollLoop_fail p j i n out effs m hp]
      simp [countGetRuns_append, countGetRuns]
    | ok l =>
      cases l with
      | nil =>
        rw [pollLoop_empty p j i n out effs hp]
        have h := ih (i + 1) out (effs ++ [Eff.getRuns, Eff.sleep 15])
        simp [countGetRuns_append, countGetRuns, List.filter_cons] at h ⊢
        omega
      | cons r rest =>
        by_cases hs : r.status = "completed"
        · by_cases hc : r.conclusion = "success"
          · rw [pollLoop_done_success p j i n out effs r rest hp hs hc]
            simp [countGetRuns_append, countGetRuns]
          · rw [pollLoop_done_failure p j i n out effs r rest hp hs hc]
            simp [countGetRuns_append, countGetRuns, List.filter_cons]
        · rw [pollLoop_progress p j i n out effs r rest hp hs]
          have h := ih (i + 1) out (effs ++ [Eff.getRuns, Eff.sleep 15])
          simp [countGetRuns_append, countGetRuns, List.filter_cons] at h ⊢
          omega

lemma pollLoop_timeout (p : Nat → PollRes) (j : Nat → JobsRes) :
    ∀ fuel i out effs,
      (∀ k, k < fuel → pollNotCompleted (p (i + k))) →
      pollLoop p j i fuel out effs =
        (out ++ ["Workflow timed out"], effs ++ timeoutBlock fuel) := by
  intro fuel
  induction fuel with
  | zero =>
    intro i out effs _
    rw [pollLoop_zero]
    simp [timeoutBlock]
  | succ n ih =>
    intro i out effs h
    have h0 := h 0 (Nat.succ_pos n)
    rw [Nat.add_zero] at h0
    have hshift : ∀ k, k < n → pollNotCompleted (p (i + 1 + k)) := by
      intro k hk
      have := h (k + 1) (by omega)
      rwa [show i + (k + 1) = i + 1 + k by omega] at this
    cases hp : p i with
    | fail m =>
      rw [hp] at h0
      simp [pollNotCompleted] at h0
    | ok l =>
      cases l with
      | nil =>
        rw [pollLoop_empty p j i n out effs hp, ih (i + 1) out _ hshift]
        simp [timeoutBlock]
      | cons r rest =>
        rw [hp] at h0
        have hs : r.status ≠ "completed" := h0
        rw [pollLoop_progress p j i n out effs r rest hp hs, ih (i + 1) out _ hshift]
        simp [timeoutBlock]

lemma pollLoop_completed (p : Nat → PollRes) (j : Nat → JobsRes) :
    ∀ k fuel i out effs, k < fuel →
      (∀ t, t < k → pollNotCompleted (p (i + t))) →
      pollCompleted (p (i + k)) →
      countGetRuns (pollLoop p j i fuel out effs).2 = countGetRuns effs + k + 1 := by
  intro k
  induction k with
  | zero =>
    intro fuel i out effs hk _ hcomp
    rw [Nat.add_zero] at hcomp
    cases fuel with
    | zero => omega
    | succ n =>
      cases hp : p i with
      | fail m =>
        rw [hp] at hcomp
        simp [pollCompleted] at hcomp
      | ok l =>
        cases l with
        | nil =>
          rw [hp] at hcomp
          simp [pollCompleted] at hcomp
        | cons r rest =>
          rw [hp] at hcomp
          have hs : r.status = "completed" := hcomp
          by_cases hc : r.conclusion = "success"
          · rw [pollLoop_done_success p j i n out effs r rest hp hs hc]
            simp [countGetRuns_append, countGetRuns]
          · rw [pollLoop_done_failure p j i n out effs r rest hp hs hc]
            simp [countGetRuns_append, countGetRuns, List.filter_cons]
  | succ kk ih =>
    intro fuel i out effs hk hnc hcomp
    cases fuel with
    | zero => omega
    | succ n =>
      have h0 := hnc 0 (Nat.succ_pos kk)
      rw [Nat.add_zero] at h0
      have hshift : ∀ t, t < kk → pollNotCompleted (p (i + 1 + t)) := by
        intro t ht
        have := hnc (t + 1) (by omega)
        rwa [show i + (t + 1) = i + 1 + t by omega] at this
      have hcomp2 : pollCompleted (p (i + 1 + kk)) := by
        rwa [show i + (kk + 1) = i + 1 + kk by omega] at hcomp
      cases hp : p i with
      | fail m =>
        rw [hp] at h0
        simp [pollNotCompleted] at h0
      | ok l =>
        cases l with
        | nil =>
          rw [pollLoop_empty p j i n out effs hp,
            ih n (i + 1) out _ (by omega) hshift hcomp2]
          simp [countGetRuns_append, countGetRuns, List.filter_cons]
          omega
        | cons r rest =>
          rw [hp] at h0
          have hs : r.status ≠ "completed" := h0
          rw [pollLoop_progress p j i n out effs r rest hp hs,
            ih n (i + 1) out _ (by omega) hshift hcomp2]
          simp [countGetRuns_append, countGetRuns, List.filter_cons]
          omega

lemma pollLoop_sleep (p : Nat → PollRes) (j : Nat → JobsRes) :
    ∀ fuel i out effs n, Eff.sleep n ∈ (pollLoop p j i fuel out effs).2 →
      Eff.sleep n ∈ effs ∨ n = 15 := by
  intro fuel
  induction fuel with
  | zero =>
    intro i out effs n h
    rw [pollLoop_zero] at h
    exact Or.inl h
  | succ m ih =>
    intro i out effs n h
    cases hp : p i with
    | fail s =>
      rw [pollLoop_fail p j i m out effs s hp] at h
      simp at h
      tauto
    | ok l =>
      cases l with
      | nil =>
        rw [pollLoop_empty p j i m out effs hp] at h
        rcases ih (i + 1) out _ n h with h2 | h2
        · simp at h2
          tauto
        · tauto
      | cons r rest =>
        by_cases hs : r.status = "completed"
        · by_cases hc : r.conclusion = "success"
          · rw [pollLoop_done_success p j i m out effs r rest hp hs hc] at h
            simp at h
            tauto
          · rw [pollLoop_done_failure p j i m out effs r rest hp hs hc] at h
            simp at h
            tauto
        · rw [pollLoop_progress p j i m out effs r rest hp hs] at h
          rcases ih (i + 1) out _ n h with h2 | h2
          · simp at h2
            tauto
          · tauto

/-- C4: after a successful dispatch, polling makes at most 12 status-check
attempts; every sleep between attempts is exactly 15 time units; if no
attempt observes a completed run the log is exactly the dispatch line
followed by the soft `Workflow timed out` line (no error line) after all 12
attempts; and once attempt `k` observes a completed run exactly `k + 1`
status checks are ever made — a completed run is never polled again. -/
theorem C4_theorem (tok mail cm db br : String) (wenv : WfEnv)
    (hd : wenv.dispatchStatus = 204) :
    countGetRuns (trigger_github_workflow tok mail cm db br wenv).2 ≤ 12 ∧
    (∀ n, Eff.sleep n ∈ (trigger_github_workflow tok mail cm db br wenv).2 →
      n = 15) ∧
    ((∀ k, k < 12 → pollNotCompleted (wenv.poll k)) →
      (trigger_github_workflow tok mail cm db br wenv).1 =
        ["Triggered workflow", "Workflow timed out"] ∧
      countGetRuns (trigger_github_workflow tok mail cm db br wenv).2 = 12) ∧
    (∀ k, k < 12 → (∀ t, t < k → pollNotCompleted (wenv.poll t)) →
      pollCompleted (wenv.poll k) →
      countGetRuns (trigger_github_workflow tok mail cm db br wenv).2 = k + 1) := by
  have htr : trigger_github_workflow tok mail cm db br wenv =
      pollLoop wenv.poll wenv.jobsAt 0 12 ["Triggered workflow"]
        [Eff.dispatchWorkflow] := by
    simp [trigger_github_workflow, hd]
  refine ⟨?_, ?_, ?_, ?_⟩
  · rw [htr]
    have h := pollLoop_count_le wenv.poll wenv.jobsAt 12 0 ["Triggered workflow"]
      [Eff.dispatchWorkflow]
    simpa [countGetRuns] using h
  · intro n hn
    rw [htr] at hn
    rcases pollLoop_sleep wenv.poll wenv.jobsAt 12 0 ["Triggered workflow"]
      [Eff.dispatchWorkflow] n hn with h | h
    · simp at h
    · exact h
  · intro hnc
    have h := pollLoop_timeout wenv.poll wenv.jobsAt 12 0 ["Triggered workflow"]
      [Eff.dispatchWorkflow] (by intro k hk; simpa using hnc k hk)
    rw [htr, h]
    constructor
    · rfl
    · rw [countGetRuns_append, countGetRuns_timeoutBlock]
      decide
  · intro k hk hnc hcomp
    have h := pollLoop_completed wenv.poll wenv.jobsAt k 12 0 ["Triggered workflow"]
      [Eff.dispatchWorkflow] hk (by intro t ht; simpa using hnc t ht)
      (by simpa using hcomp)
    rw [htr, h]
    simp [countGetRuns]

/-- C4 witness: a run that stays `in_progress` for all 12 attempts times
out softly with exactly 12 status checks. -/
theorem C4_witness :
    (trigger_github_workflow "t" "a@b.c" "Auto sync" "main" "main"
      ⟨204, "", fun _ => PollRes.ok [⟨"in_progress", "", 7⟩],
        fun _ => ⟨200, []⟩⟩).1 =
      ["Triggered workflow", "Workflow timed out"] ∧
    countGetRuns (trigger_github_workflow "t" "a@b.c" "Auto sync" "main" "main"
      ⟨204, "", fun _ => PollRes.ok [⟨"in_progress", "", 7⟩],
        fun _ => ⟨200, []⟩⟩).2 = 12 :=
  ( C4_theorem "t" "a@b.c" "Auto sync" "main" "main"
    ⟨204, "", fun _ => PollRes.ok [⟨"in_progress", "", 7⟩], fun _ => ⟨200, []⟩⟩
    rfl).2.2.1 (fun k _ => by simp [pollNotCompleted])

/-! ## C2: per-file upload outcomes and dispatch blocking -/

lemma isErrUploadLine_line (f m : String) :
    isErrUploadLine ("Error uploading " ++ f ++ ": " ++ m) = true := by
  rw [String.append_assoc, String.append_assoc]
  exact isErrUploadLine_of_append _

lemma uploadLoop_len (fr : String → FileRes) (br : String) :
    ∀ fs out up effs,
      ((uploadLoop fr br fs out up effs).2.1).length =
        up.length + (fs.filter (fun g => (fr g).isUp)).length := by
  intro fs
  induction fs with
  | nil => intro out up effs; simp [uploadLoop]
  | cons f rest ih =>
    intro out up effs
    cases hf : fr f with
    | uploaded =>
      rw [uploadLoop_cons_uploaded fr br f rest out up effs hf, ih]
      simp [List.filter_cons, hf, FileRes.isUp]
      omega
    | putFailed m =>
      rw [uploadLoop_cons_putFailed fr br f m rest out up effs hf, ih]
      simp [List.filter_cons, hf, FileRes.isUp]
    | readFailed m =>
      rw [uploadLoop_cons_readFailed fr br f m rest out up effs hf, ih]
      simp [List.filter_cons, hf, FileRes.isUp]

lemma uploadLoop_countFail (fr : String → FileRes) (br : String) :
    ∀ fs out up effs, (∀ g ∈ fs, (fr g).isRead = false) →
      countFail (uploadLoop fr br fs out up effs).1 =
        countFail out + (fs.filter (fun g => !(fr g).isUp)).length := by
  intro fs
  induction fs with
  | nil => intro out up effs _; simp [uploadLoop]
  | cons f rest ih =>
    intro out up effs hna
    cases hf : fr f with
    | uploaded =>
      rw [uploadLoop_cons_uploaded fr br f rest out up effs hf,
        ih _ _ _ (fun g hg => hna g (by simp [hg]))]
      simp [countFail_append, countFail, List.filter_cons, hf, FileRes.isUp,
        isErrUploadLine_uploaded]
    | putFailed m =>
      rw [uploadLoop_cons_putFailed fr br f m rest out up effs hf,
        ih _ _ _ (fun g hg => hna g (by simp [hg]))]
      simp [countFail_append, countFail, List.filter_cons, hf, FileRes.isUp,
        isErrUploadLine_line]
      omega
    | readFailed m =>
      have := hna f (by simp)
      rw [hf] at this
      simp [FileRes.isRead] at this

lemma uploadLoop_puts (fr : String → FileRes) (br : String) :
    ∀ fs out up effs, (∀ g ∈ fs, (fr g).isRead = false) →
      ∀ g ∈ fs, Eff.putContents g br ∈ (uploadLoop fr br fs out up effs).2.2 := by
  intro fs
  induction fs with
  | nil => intro out up effs _ g hg; simp at hg
  | cons f rest ih =>
    intro out up effs hna g hg
    rcases List.mem_cons.1 hg with rfl | hg2
    · cases hf : fr g with
      | uploaded =>
        rw [uploadLoop_cons_uploaded fr br g rest out up effs hf]
        exact uploadLoop_effs_mono _ _ _ _ _ _ _ (by simp)
      | putFailed m =>
        rw [uploadLoop_cons_putFailed fr br g m rest out up effs hf]
        exact uploadLoop_effs_mono _ _ _ _ _ _ _ (by simp)
      | readFailed m =>
        have := hna g (by simp)
        rw [hf] at this
        simp [FileRes.isRead] at this
    · cases hf : fr f with
      | uploaded =>
        rw [uploadLoop_cons_uploaded fr br f rest out up effs hf]
        exact ih _ _ _ (fun x hx => hna x (by simp [hx])) g hg2
      | putFailed m =>
        rw [uploadLoop_cons_putFailed fr br f m rest out up effs hf]
        exact ih _ _ _ (fun x hx => hna x (by simp [hx])) g hg2
      | readFailed m =>
        rw [uploadLoop_cons_readFailed fr br f m rest out up effs hf]
        exact ih _ _ _ (fun x hx => hna x (by simp [hx])) g hg2

lemma uploadLoop_any_mono (fr : String → FileRes) (br : String) :
    ∀ fs out up effs, out.any (fun l => pyIn "Error" l) = true →
      (uploadLoop fr br fs out up effs).1.any (fun l => pyIn "Error" l) = true := by
  intro fs
  induction fs with
  | nil => intro out up effs h; simpa [uploadLoop] using h
  | cons f rest ih =>
    intro out up effs h
    cases hf : fr f with
    | uploaded =>
      rw [uploadLoop_cons_uploaded fr br f rest out up effs hf]
      exact ih _ _ _ (by simp [List.any_append, h])
    | putFailed m =>
      rw [uploadLoop_cons_putFailed fr br f m rest out up effs hf]
      exact ih _ _ _ (by simp [List.any_append, h])
    | readFailed m =>
      rw [uploadLoop_cons_readFailed fr br f m rest out up effs hf]
      exact ih _ _ _ (by simp [List.any_append, h])

lemma uploadLoop_anyErr (fr : String → FileRes) (br : String) :
    ∀ fs out up effs (g : String), g ∈ fs → (fr g).isUp = false →
      (fr g).isRead = false →
      (uploadLoop fr br fs out up effs).1.any (fun l => pyIn "Error" l) = true := by
  intro fs
  induction fs with
  | nil => intro out up effs g hg; simp at hg
  | cons f rest ih =>
    intro out up effs g hg hu hr
    rcases List.mem_cons.1 hg with rfl | hg2
    · cases hf : fr g with
      | uploaded =>
        rw [hf] at hu
        simp [FileRes.isUp] at hu
      | putFailed m =>
        rw [uploadLoop_cons_putFailed fr br g m rest out up effs hf]
        exact uploadLoop_any_mono _ _ _ _ _ _
          (by simp [List.any_append, pyIn_error_upload])
      | readFailed m =>
        rw [hf] at hr
        simp [FileRes.isRead] at hr
    · cases hf : fr f with
      | uploaded =>
        rw [uploadLoop_cons_uploaded fr br f rest out up effs hf]
        exact ih _ _ _ g hg2 hu hr
      | putFailed m =>
        rw [uploadLoop_cons_putFailed fr br f m rest out up effs hf]
        exact ih _ _ _ g hg2 hu hr
      | readFailed m =>
        rw [uploadLoop_cons_readFailed fr br f m rest out up effs hf]
        exact ih _ _ _ g hg2 hu hr

lemma uploadLoop_noDispatch (fr : String → FileRes) (br : String) :
    ∀ fs out up effs, Eff.dispatchWorkflow ∉ effs →
      Eff.dispatchWorkflow ∉ (uploadLoop fr br fs out up effs).2.2 := by
  intro fs
  induction fs with
  | nil => intro out up effs h; simpa [uploadLoop] using h
  | cons f rest ih =>
    intro out up effs h
    cases hf : fr f with
    | uploaded =>
      rw [uploadLoop_cons_uploaded fr br f rest out up effs hf]
      exact ih _ _ _ (by simp [h])
    | putFailed m =>
      rw [uploadLoop_cons_putFailed fr br f m rest out up effs hf]
      exact ih _ _ _ (by simp [h])
    | readFailed m =>
      rw [uploadLoop_cons_readFailed fr br f m rest out up effs hf]
      exact ih _ _ _ h

lemma upload_files_noDispatch (dirExists : Bool) (dir : String) (fs : List String)
    (branch db : String) (env : UploadEnv) :
    Eff.dispatchWorkflow ∉ (upload_files_to_github dirExists dir fs branch db env).2.2 := by
  unfold upload_files_to_github
  dsimp only
  split_ifs <;>
    first
    | (apply uploadLoop_noDispatch; simp)
    | simp

lemma get_repo_info_noDispatch (link : String) (renv : RepoEnv) :
    Eff.dispatchWorkflow ∉ (get_repo_info link renv).2 := by
  unfold get_repo_info
  split
  · simp
  · dsimp only
    split_ifs <;> simp

/-- C2: on the remote upload path, with the vault validated, the branch
pre-existing and the remote `readme.md` present, (a) when exactly one
per-file PUT fails: every one of the N files is attempted (a PUT effect is
in the trace for each), the result reports N-1 uploaded files and exactly
one failure line, the overall log contains an error line, and the
orchestrator never dispatches the workflow; (b) when zero files upload
successfully the run reports `No files uploaded` and also never dispatches
the workflow. -/
theorem C2_theorem (f : MainFields) (isDir : String → Bool) (walk : List String)
    (renv : RepoEnv) (cacheOk : Bool) (uenv : UploadEnv) (wenv : WfEnv)
    (penv : PrEnv) (o rp db : String) (reffs : List Eff)
    (hval : mainValidationError f isDir = none)
    (hdir : isDir (pyStrip f.localVault) = true)
    (hrepo : get_repo_info (pyStrip f.repoLink) renv = (Except.ok (o, rp, db), reffs))
    (hwalk : walk ≠ [])
    (h404 : uenv.readmeStatus ≠ 404)
    (href : uenv.refStatus = 200)
    (hnoread : ∀ g ∈ walk, (uenv.fileRes g).isRead = false) :
    ((walk.filter (fun g => !(uenv.fileRes g).isUp)).length = 1 →
      (upload_files_to_github true (pyStrip f.localVault) walk (mainBranch f) db
          uenv).2.1.length + 1 = walk.length ∧
      countFail (upload_files_to_github true (pyStrip f.localVault) walk
          (mainBranch f) db uenv).1 = 1 ∧
      (∀ g ∈ walk, Eff.putContents g (mainBranch f) ∈
        (upload_files_to_github true (pyStrip f.localVault) walk (mainBranch f) db
          uenv).2.2) ∧
      (runCommandsMain f isDir walk renv cacheOk uenv wenv penv).1.any
        (fun l => pyIn "Error" l) = true ∧
      Eff.dispatchWorkflow ∉ (runCommandsMain f isDir walk renv cacheOk uenv wenv
        penv).2) ∧
    ((∀ g ∈ walk, (uenv.fileRes g).isUp = false) →
      "Error: No files uploaded. Check folder." ∈
        (runCommandsMain f isDir walk renv cacheOk uenv wenv penv).1 ∧
      Eff.dispatchWorkflow ∉ (runCommandsMain f isDir walk renv cacheOk uenv wenv
        penv).2) := by
  have hwe : walk.isEmpty = false := by
    cases walk with
    | nil => exact absurd rfl hwalk
    | cons a t => rfl
  have hupl : upload_files_to_github true (pyStrip f.localVault) walk
      (mainBranch f) db uenv =
      uploadLoop uenv.fileRes (mainBranch f) walk
        (["Branch " ++ mainBranch f ++ " exists, updating"]) []
        [Eff.getContentsFile "readme.md" (mainBranch f), Eff.getRef (mainBranch f)] := by
    simp [upload_files_to_github, h404, href]
  have hnd1 : Eff.dispatchWorkflow ∉ reffs := by
    have h := get_repo_info_noDispatch (pyStrip f.repoLink) renv
    rw [hrepo] at h
    exact h
  have hnd2 : Eff.dispatchWorkflow ∉
      (upload_files_to_github true (pyStrip f.localVault) walk (mainBranch f) db
        uenv).2.2 :=
    upload_files_noDispatch _ _ _ _ _ _
  constructor
  · intro hone
    have hpos : 0 < (walk.filter (fun g => !(uenv.fileRes g).isUp)).length := by
      omega
    obtain ⟨g, hgf⟩ := List.exists_mem_of_length_pos hpos
    have hgw : g ∈ walk := (List.mem_filter.1 hgf).1
    have hgu : (uenv.fileRes g).isUp = false := by
      have := (List.mem_filter.1 hgf).2
      simpa using this
    have hany : (upload_files_to_github true (pyStrip f.localVault) walk
        (mainBranch f) db uenv).1.any (fun l => pyIn "Error" l) = true := by
      rw [hupl]
      exact uploadLoop_anyErr _ _ _ _ _ _ g hgw hgu (hnoread g hgw)
    refine ⟨?_, ?_, ?_, ?_, ?_⟩
    · rw [hupl, uploadLoop_len]
      have hpart := length_filter_add_length_filter_not walk
        (fun g => (uenv.fileRes g).isUp)
      simp only [List.length_nil] at *
      omega
    · rw [hupl, uploadLoop_countFail _ _ _ _ _ _ hnoread, hone]
      simp [countFail, List.filter_cons, isErrUploadLine_branch]
    · intro g2 hg2
      rw [hupl]
      exact uploadLoop_puts _ _ _ _ _ _ hnoread g2 hg2
    · by_cases hemp : (upload_files_to_github true (pyStrip f.localVault) walk
          (mainBranch f) db uenv).2.1.isEmpty
      · simp [runCommandsMain, hval, hrepo, hwe, hdir, hemp, List.any_append, hany]
      · simp [runCommandsMain, hval, hrepo, hwe, hdir, hemp, List.any_append, hany]
    · by_cases hemp : (upload_files_to_github true (pyStrip f.localVault) walk
          (mainBranch f) db uenv).2.1.isEmpty
      · simp [runCommandsMain, hval, hrepo, hwe, hdir, hemp, hany, hnd1, hnd2]
      · simp [runCommandsMain, hval, hrepo, hwe, hdir, hemp, hany, hnd1, hnd2]
  · intro hall
    have hlen : (upload_files_to_github true (pyStrip f.localVault) walk
        (mainBranch f) db uenv).2.1.length = 0 := by
      rw [hupl, uploadLoop_len]
      have : walk.filter (fun g => (uenv.fileRes g).isUp) = [] := by
        rw [List.filter_eq_nil_iff]
        intro g hg
        simp [hall g hg]
      simp [this]
    have hemp : (upload_files_to_github true (pyStrip f.localVault) walk
        (mainBranch f) db uenv).2.1.isEmpty = true := by
      rw [List.isEmpty_iff_length_eq_zero]
      exact hlen
    constructor
    · simp [runCommandsMain, hval, hrepo, hwe, hdir, hemp]
    · simp [runCommandsMain, hval, hrepo, hwe, hdir, hemp, hnd1, hnd2]

/-- C2 witness: a two-file vault where the PUT for `b.md` fails; one file
is reported uploaded, one failure line appears, and no workflow dispatch
occurs. -/
theorem C2_witness :
    (upload_files_to_github true "/v" ["a.md", "b.md"] "main" "main"
      ⟨200, 201, "", 200, "s", 200, "", "s", 201, "",
        fun g => if g == "b.md" then FileRes.putFailed "Conflict"
          else FileRes.uploaded⟩).2.1.length + 1 = 2 ∧
    countFail (upload_files_to_github true "/v" ["a.md", "b.md"] "main" "main"
      ⟨200, 201, "", 200, "s", 200, "", "s", 201, "",
        fun g => if g == "b.md" then FileRes.putFailed "Conflict"
          else FileRes.uploaded⟩).1 = 1 ∧
    Eff.dispatchWorkflow ∉
      (runCommandsMain ⟨"tok", "a@b.c", "https://github.com/o/r", "", "/v", ""⟩
        (fun _ => true) ["a.md", "b.md"] ⟨200, "", "main", 200, 201, "", 200, ""⟩
        true
        ⟨200, 201, "", 200, "s", 200, "", "s", 201, "",
          fun g => if g == "b.md" then FileRes.putFailed "Conflict"
            else FileRes.uploaded⟩
        ⟨204, "", fun _ => PollRes.ok [], fun _ => ⟨200, []⟩⟩
        ⟨200, "", [], fun _ => 200, fun _ => ""⟩).2 := by
  have h := ( C2_theorem ⟨"tok", "a@b.c", "https://github.com/o/r", "", "/v", ""⟩
    (fun _ => true) ["a.md", "b.md"] ⟨200, "", "main", 200, 201, "", 200, ""⟩
    true
    ⟨200, 201, "", 200, "s", 200, "", "s", 201, "",
      fun g => if g == "b.md" then FileRes.putFailed "Conflict"
        else FileRes.uploaded⟩
    ⟨204, "", fun _ => PollRes.ok [], fun _ => ⟨200, []⟩⟩
    ⟨200, "", [], fun _ => 200, fun _ => ""⟩
    "o" "r" "main" [Eff.getRepo, Eff.getBranchMain]
    rfl rfl rfl (by decide) (by decide) rfl (by decide)).1 (by decide)
  exact ⟨h.1, h.2.1, h.2.2.2.2⟩

end Syncer
